import Mathlib

/-!
Verification development for the magenta kernel's object-and-handle core.

This file gives a shallow embedding of the handle arena, the per-process
handle table, the message-pipe state machine and the relevant system calls
(`sys_handle_duplicate`, `sys_handle_replace`, `sys_msgpipe_write`,
`sys_handle_wait_many`), translated from:
  - kernel/lib/syscalls/syscalls_magenta.cpp
  - magenta.cpp, msg_pipe.cpp, message_pipe_dispatcher.cpp,
    process_dispatcher.cpp (the unnamed source parts of the repository).

Machine integers are modelled as `Nat` holding the 32-bit pattern; where
signedness or overflow matters the conversion is written out explicitly.
-/

namespace Magenta

/-- Status codes returned by the kernel (from err.h; the numeric values are
irrelevant to the claims, so statuses are modelled as an enumeration). -/
inductive Status where
  | noError
  | errBadHandle
  | errInvalidArgs
  | errAccessDenied
  | errNoMemory
  | errBadState
  | errNotSupported
  | errTimedOut
  | errChannelClosed
  | errInterrupted
  | errWrongType
  | errTooBig
deriving DecidableEq, Repr

/-- Rights bits. Modelled from the spec: the rights header is not under src/;
the spec lists DUPLICATE, TRANSFER, READ, WRITE, ... as bitmask entries plus
a special SAME_RIGHTS sentinel meaning "copy from source" at duplicate time.
The claims depend only on these being distinct single bits and on the
sentinel being a distinguished value. -/
def MX_RIGHT_DUPLICATE : Nat := 1

def MX_RIGHT_TRANSFER : Nat := 2

def MX_RIGHT_READ : Nat := 4

def MX_RIGHT_WRITE : Nat := 8

/-- Modelled from the spec: the SAME_RIGHTS sentinel (a reserved value that
is not a combination of ordinary rights bits). -/
def MX_RIGHT_SAME_RIGHTS : Nat := 2 ^ 31

/-- Signal bits. Modelled from the spec: READABLE=bit0, WRITABLE=bit1,
PEER_CLOSED=bit2, SIGNALED=bit3. -/
def MX_SIGNAL_READABLE : Nat := 1

def MX_SIGNAL_WRITABLE : Nat := 2

def MX_SIGNAL_PEER_CLOSED : Nat := 4

def MX_SIGNAL_SIGNALED : Nat := 8

/-- magenta_rights_check from magenta.cpp: `(actual & desired) == desired`. -/
def magenta_rights_check (actual desired : Nat) : Bool :=
  actual &&& desired == desired

/-- A handle slot: rights mask, owning-process koid (0 when owned by no
process, i.e. in transit or freshly made), and the koid of the dispatcher
it refers to. (The shared `RefPtr<Dispatcher>` is modelled by the
dispatcher's koid, which is all the syscalls under study compare.) -/
structure Handle where
  rights : Nat
  procId : Nat
  disp : Nat
deriving DecidableEq, Repr

/-- kMaxHandleCount from magenta.cpp: `32 * 1024`. -/
def kMaxHandleCount : Nat := 32 * 1024

/-- The handle arena, as an association list from slot index to the live
handle stored there. A freed slot is zeroed by DeleteHandle ("Setting the
memory to zero is critical for the safe operation of the handle table
lookup"), so free and never-used slots are modelled as absent keys. -/
abbrev Arena := List (Nat × Handle)

/-- Reads the handle stored at slot `i`. -/
def lookupSlot (a : Arena) (i : Nat) : Option Handle :=
  a.lookup i

/-- Overwrites the owning-process id of slot `i` (Handle::set_process_id);
a no-op when the slot is free. -/
def setProcId (a : Arena) (i : Nat) (pid : Nat) : Arena :=
  a.map (fun e => if e.1 = i then (e.1, { e.2 with procId := pid }) else e)

/-- MapU32ToHandle from magenta.cpp: the index is mapped back to an arena
slot if it lies within the arena range (`handle_arena.in_range`). -/
def MapU32ToHandle (a : Arena) (i : Nat) : Option Handle :=
  if i < kMaxHandleCount then lookupSlot a i else none

/-- map_handle_to_value from process_dispatcher.cpp:
`mixer ^ ((MapHandleToU32(handle) << 2) | 0x1)`, where `i` is the arena
index of the handle. -/
def map_handle_to_value (i mixer : Nat) : Nat :=
  mixer ^^^ ((i <<< 2) ||| 1)

/-- The index computation of map_value_to_handle:
`(value ^ mixer) >> 2` on int32 operands, then converted to uint32 by
MapU32ToHandle. For a pattern with the sign bit set the arithmetic right
shift sign-extends, which after the uint32 conversion adds `3 * 2^30`. -/
def decode_handle_id (v mixer : Nat) : Nat :=
  let x := v ^^^ mixer
  if x < 2 ^ 31 then x >>> 2 else x >>> 2 + 3 * 2 ^ 30

/-- map_value_to_handle from process_dispatcher.cpp: decode the index and
map it through the arena. The arena slot index is returned alongside the
handle (in the source it is recoverable from the returned pointer). -/
def map_value_to_handle (a : Arena) (v mixer : Nat) : Option (Nat × Handle) :=
  match MapU32ToHandle a (decode_handle_id v mixer) with
  | some h => some (decode_handle_id v mixer, h)
  | none => none

/-- ProcessDispatcher::GetHandle_NoLock: decode, then require the
owning-process id to equal the caller's koid. -/
def GetHandle_NoLock (a : Arena) (koid mixer v : Nat) : Option (Nat × Handle) :=
  match map_value_to_handle a v mixer with
  | none => none
  | some (i, h) => if h.procId = koid then some (i, h) else none

/-- ProcessDispatcher::AddHandle_NoLock: sets the owning-process id of the
handle (membership of the intrusive list is observed only through the
owning-process id, which is what GetHandle_NoLock checks). -/
def AddHandle_NoLock (a : Arena) (i koid : Nat) : Arena :=
  setProcId a i koid

/-- ProcessDispatcher::RemoveHandle_NoLock: look the value up and clear the
owning-process id, returning the slot index of the removed handle. -/
def RemoveHandle_NoLock (a : Arena) (koid mixer v : Nat) : Option (Arena × Nat) :=
  match GetHandle_NoLock a koid mixer v with
  | none => none
  | some (i, _) => some (setProcId a i 0, i)

/-- ProcessDispatcher::UndoRemoveHandle_NoLock: decode the value without any
validity check and re-add the slot to the table. -/
def UndoRemoveHandle_NoLock (a : Arena) (koid mixer v : Nat) : Arena :=
  AddHandle_NoLock a (decode_handle_id v mixer) koid

/-! Bit-arithmetic helper lemmas for the value encoding. -/

theorem shiftLeft_two_or_one (i : Nat) : (i <<< 2) ||| 1 = 4 * i + 1 := by
  have ha : (2 * (2 * i)) = Nat.bit false (2 * i) := by simp [Nat.bit_false]
  have hb : (1 : Nat) = Nat.bit true 0 := by simp [Nat.bit_true]
  rw [Nat.shiftLeft_eq]
  have hm : i * 2 ^ 2 = 2 * (2 * i) := by ring
  rw [hm, ha, hb, Nat.lor_bit]
  simp [Nat.bit_true]
  omega

theorem xor_mod_two (s t : Nat) (hs : s % 2 = 0) (ht : t % 2 = 1) :
    (s ^^^ t) % 2 = 1 := by
  have h0 : Nat.testBit (s ^^^ t) 0 = true := by
    rw [Nat.testBit_xor]
    simp only [Nat.testBit_zero]
    simp [hs, ht]
  rw [Nat.testBit_zero] at h0
  exact of_decide_eq_true h0

theorem xor_small_shiftRight (x b n : Nat) (hb : b < 2 ^ n) :
    (x ^^^ b) >>> n = x >>> n := by
  apply Nat.eq_of_testBit_eq
  intro i
  rw [Nat.testBit_shiftRight, Nat.testBit_shiftRight, Nat.testBit_xor]
  have hbf : b.testBit (n + i) = false :=
    Nat.testBit_eq_false_of_lt
      (lt_of_lt_of_le hb (Nat.pow_le_pow_right (by norm_num) (by omega)))
  simp [hbf]

theorem lt_two_pow_31_iff_shiftRight (x : Nat) : x < 2 ^ 31 ↔ x >>> 31 = 0 := by
  rw [Nat.shiftRight_eq_div_pow]
  omega

/-- Lookup depends on the presented value only through the decoded index:
flipping bits below the index field (the two reserved bits) leaves the
decoded index unchanged. -/
theorem decode_handle_id_xor_low (v mixer b : Nat) (hb : b < 4) :
    decode_handle_id (v ^^^ b) mixer = decode_handle_id v mixer := by
  unfold decode_handle_id
  have hx : (v ^^^ b) ^^^ mixer = (v ^^^ mixer) ^^^ b := by
    rw [Nat.xor_assoc, Nat.xor_assoc, Nat.xor_comm b mixer]
  rw [hx]
  have h2 : ((v ^^^ mixer) ^^^ b) >>> 2 = (v ^^^ mixer) >>> 2 :=
    xor_small_shiftRight _ b 2 (by omega)
  have h31 : ((v ^^^ mixer) ^^^ b) >>> 31 = (v ^^^ mixer) >>> 31 :=
    xor_small_shiftRight _ b 31 (by calc b < 4 := hb
                                        _ < 2 ^ 31 := by norm_num)
  have hlt : ((v ^^^ mixer) ^^^ b < 2 ^ 31) ↔ (v ^^^ mixer < 2 ^ 31) := by
    rw [lt_two_pow_31_iff_shiftRight, lt_two_pow_31_iff_shiftRight, h31]
  by_cases hc : v ^^^ mixer < 2 ^ 31
  · rw [if_pos hc, if_pos (hlt.mpr hc), h2]
  · rw [if_neg hc, if_neg (fun hcontra => hc (hlt.mp hcontra)), h2]

/-- C2: for every handle allocated in the arena and every per-process secret
with its bottom two bits and top bit zero, decoding the encoded user value
returns the same handle, and the encoded value has its bottom bit set and
its top (sign) bit clear, hence is nonzero and non-negative. -/
theorem c2_handle_value_roundtrip (a : Arena) (i : Nat) (h : Handle)
    (secret : Nat) (hsec4 : secret % 4 = 0) (hsec31 : secret < 2 ^ 31)
    (halloc : lookupSlot a i = some h) (hi : i < kMaxHandleCount) :
    map_value_to_handle a (map_handle_to_value i secret) secret = some (i, h) ∧
    map_handle_to_value i secret % 2 = 1 ∧
    map_handle_to_value i secret < 2 ^ 31 ∧
    map_handle_to_value i secret ≠ 0 := by
  have henc : map_handle_to_value i secret = secret ^^^ (4 * i + 1) := by
    unfold map_handle_to_value
    rw [shiftLeft_two_or_one]
  have hi29 : 4 * i + 1 < 2 ^ 31 := by
    have : kMaxHandleCount = 32768 := rfl
    have h31 : (2 : Nat) ^ 31 = 2147483648 := by norm_num
    omega
  have hxdec : (secret ^^^ (4 * i + 1)) ^^^ secret = 4 * i + 1 := by
    rw [Nat.xor_comm secret (4 * i + 1), Nat.xor_cancel_right]
  have hmod : map_handle_to_value i secret % 2 = 1 := by
    rw [henc]
    exact xor_mod_two secret (4 * i + 1) (by omega) (by omega)
  have hlt : map_handle_to_value i secret < 2 ^ 31 := by
    rw [henc]
    exact Nat.xor_lt_two_pow hsec31 hi29
  have hdec : decode_handle_id (map_handle_to_value i secret) secret = i := by
    unfold decode_handle_id
    rw [henc, hxdec, if_pos hi29, Nat.shiftRight_eq_div_pow]
    omega
  refine ⟨?_, hmod, hlt, by omega⟩
  unfold map_value_to_handle MapU32ToHandle
  rw [hdec, if_pos hi, halloc]

/-- Witness for c2_handle_value_roundtrip at a concrete arena and secret. -/
theorem c2_handle_value_roundtrip_witness :
    ((8 : Nat) % 4 = 0 ∧ (8 : Nat) < 2 ^ 31 ∧
      lookupSlot [(0, ⟨7, 5, 9⟩)] 0 = some ⟨7, 5, 9⟩ ∧ 0 < kMaxHandleCount) ∧
    (map_value_to_handle [(0, ⟨7, 5, 9⟩)] (map_handle_to_value 0 8) 8 =
        some (0, ⟨7, 5, 9⟩) ∧
      map_handle_to_value 0 8 % 2 = 1 ∧
      map_handle_to_value 0 8 < 2 ^ 31 ∧
      map_handle_to_value 0 8 ≠ 0) :=
  ⟨⟨by decide, by decide, by decide, by decide⟩,
    c2_handle_value_roundtrip [(0, ⟨7, 5, 9⟩)] 0 ⟨7, 5, 9⟩ 8
      (by decide) (by decide) (by decide) (by decide)⟩

/-- C3 counterexample: the two reserved low bits are NOT checked on lookup.
The arena holds a handle at slot 0 owned by process koid 7 whose secret is
0; the correctly encoded value for that slot is `(0 <<< 2) ||| 1 = 1`. The
presented value 0 has pre-XOR id 0, whose bottom bit is clear — by the
claim it must be rejected as a bad handle — yet GetHandle_NoLock accepts it
and returns the slot-0 handle, because the decode simply shifts the two
reserved bits away. -/
theorem c3_reserved_bits_counterexample :
    GetHandle_NoLock [(0, ⟨4, 7, 5⟩)] 7 0 0 = some (0, ⟨4, 7, 5⟩) ∧
    (0 ^^^ (0 : Nat)) % 2 ≠ 1 := by
  constructor
  · rfl
  · decide

/-- C3 amended: lookup validates the decoded index against the arena range,
the slot against allocation, and the owning process against the caller, but
ignores the two reserved low bits — any two values that differ only in the
two low bits of the pre-XOR id are treated identically. -/
theorem c3_lookup_validation (a : Arena) (koid mixer v : Nat) :
    (decode_handle_id v mixer ≥ kMaxHandleCount →
      GetHandle_NoLock a koid mixer v = none) ∧
    (lookupSlot a (decode_handle_id v mixer) = none →
      GetHandle_NoLock a koid mixer v = none) ∧
    (∀ h, lookupSlot a (decode_handle_id v mixer) = some h → h.procId ≠ koid →
      GetHandle_NoLock a koid mixer v = none) ∧
    (∀ b, b < 4 →
      GetHandle_NoLock a koid mixer (v ^^^ b) = GetHandle_NoLock a koid mixer v) := by
  refine ⟨?_, ?_, ?_, ?_⟩
  · intro hge
    unfold GetHandle_NoLock map_value_to_handle MapU32ToHandle
    rw [if_neg (by omega)]
  · intro hnone
    unfold GetHandle_NoLock map_value_to_handle MapU32ToHandle
    by_cases hr : decode_handle_id v mixer < kMaxHandleCount
    · rw [if_pos hr, hnone]
    · rw [if_neg hr]
  · intro h hsome hne
    unfold GetHandle_NoLock map_value_to_handle MapU32ToHandle
    by_cases hr : decode_handle_id v mixer < kMaxHandleCount
    · rw [if_pos hr, hsome]
      simp [hne]
    · rw [if_neg hr]
  · intro b hb
    unfold GetHandle_NoLock map_value_to_handle MapU32ToHandle
    rw [decode_handle_id_xor_low v mixer b hb]

/-- Witness for c3_lookup_validation: flipping the low two bits of a valid
value yields the same lookup result. -/
theorem c3_lookup_validation_witness :
    GetHandle_NoLock [(0, ⟨4, 7, 5⟩)] 7 0 (1 ^^^ 3) =
      GetHandle_NoLock [(0, ⟨4, 7, 5⟩)] 7 0 1 :=
  (c3_lookup_validation [(0, ⟨4, 7, 5⟩)] 7 0 1).2.2.2 3 (by decide)

/-! Message pipe state machine (msg_pipe.cpp, message_pipe_dispatcher.cpp). -/

/-- Modelled from the spec: the Waiter (the state-tracker of this code era)
carries a `(satisfied, satisfiable)` pair of signal bitmasks with update
operations that clear then set bits; the Waiter implementation itself is not
under src/ and only its callers are. A freshly constructed Waiter carries
empty masks (the spec's invariant `satisfied ⊆ satisfiable` admits no
nonempty default, and the StateTracker used elsewhere in src receives its
initial signals state explicitly, e.g. `{0u, MX_SIGNAL_SIGNALED}`). -/
structure Waiter where
  satisfied : Nat
  satisfiable : Nat
deriving DecidableEq, Repr

/-- uint32 all-ones, for modelling the C bitwise complement `~mask`. -/
def mask32 : Nat := 0xffffffff

/-- Waiter::Satisfied(set_mask, clear_mask, yield): updates the satisfied
mask (the `yield` scheduling hint has no effect on the masks). -/
def Waiter.Satisfied (w : Waiter) (setm clearm : Nat) : Waiter :=
  { w with satisfied := w.satisfied &&& (mask32 ^^^ clearm) ||| setm }

/-- Waiter::Satisfiable(set_mask, clear_mask): updates the satisfiable
mask. -/
def Waiter.Satisfiable (w : Waiter) (setm clearm : Nat) : Waiter :=
  { w with satisfiable := w.satisfiable &&& (mask32 ^^^ clearm) ||| setm }

/-- A MessagePacket: a byte payload and the handles (arena slot indices) in
transit inside it. -/
structure MessagePacket where
  data : List Nat
  handles : List Nat
deriving DecidableEq, Repr

/-- other_side from msg_pipe.cpp: `side ? 0u : 1u`. -/
def other_side (side : Nat) : Nat :=
  if side ≠ 0 then 0 else 1

/-- The shared MessagePipe: two per-side FIFOs, two dispatcher-alive flags
and two waiters. -/
structure MessagePipe where
  messages0 : List MessagePacket
  messages1 : List MessagePacket
  alive0 : Bool
  alive1 : Bool
  waiter0 : Waiter
  waiter1 : Waiter
deriving DecidableEq, Repr

def MessagePipe.messages (p : MessagePipe) (side : Nat) : List MessagePacket :=
  if side = 0 then p.messages0 else p.messages1

def MessagePipe.alive (p : MessagePipe) (side : Nat) : Bool :=
  if side = 0 then p.alive0 else p.alive1

def MessagePipe.waiter (p : MessagePipe) (side : Nat) : Waiter :=
  if side = 0 then p.waiter0 else p.waiter1

def MessagePipe.setMessages (p : MessagePipe) (side : Nat)
    (ms : List MessagePacket) : MessagePipe :=
  if side = 0 then { p with messages0 := ms } else { p with messages1 := ms }

def MessagePipe.setAlive (p : MessagePipe) (side : Nat) (b : Bool) : MessagePipe :=
  if side = 0 then { p with alive0 := b } else { p with alive1 := b }

def MessagePipe.setWaiter (p : MessagePipe) (side : Nat) (w : Waiter) : MessagePipe :=
  if side = 0 then { p with waiter0 := w } else { p with waiter1 := w }

/-- MessagePipe::MessagePipe: both dispatchers alive, and each side's waiter
receives `Satisfiable(MX_SIGNAL_READABLE | MX_SIGNAL_WRITABLE, 0)`. -/
def MessagePipe.init : MessagePipe :=
  let w := Waiter.Satisfiable ⟨0, 0⟩ (MX_SIGNAL_READABLE ||| MX_SIGNAL_WRITABLE) 0
  ⟨[], [], true, true, w, w⟩

/-- MessagePipe::OnDispatcherDestruction: mark this side dead; if the other
dispatcher is still alive, raise PEER_CLOSED and clear WRITABLE in its
satisfied mask, and clear WRITABLE from its satisfiable mask. -/
def MessagePipe.OnDispatcherDestruction (p : MessagePipe) (side : Nat) : MessagePipe :=
  let other := other_side side
  let p1 := p.setAlive side false
  if p1.alive other then
    p1.setWaiter other
      (((p1.waiter other).Satisfied MX_SIGNAL_PEER_CLOSED MX_SIGNAL_WRITABLE).Satisfiable
        0 MX_SIGNAL_WRITABLE)
  else p1

/-- MessagePipe::Read: pop the front of this side's queue; if the queue is
now empty, clear READABLE from satisfied, and also from satisfiable when
the other dispatcher is gone. Returns the popped message, or BAD_STATE /
CHANNEL_CLOSED when the queue was empty with the peer alive / dead. -/
def MessagePipe.Read (p : MessagePipe) (side : Nat) :
    Status × Option MessagePacket × MessagePipe :=
  let other := other_side side
  let msg := (p.messages side).head?
  let rest := (p.messages side).tail
  let otherAlive := p.alive other
  let p1 := p.setMessages side rest
  let p2 :=
    if rest.isEmpty then
      let w1 := (p1.waiter side).Satisfied 0 MX_SIGNAL_READABLE
      let w2 := if ¬ otherAlive then w1.Satisfiable 0 MX_SIGNAL_READABLE else w1
      p1.setWaiter side w2
    else p1
  match msg with
  | some m => (Status.noError, some m, p2)
  | none => (if otherAlive then Status.errBadState else Status.errChannelClosed, none, p2)

/-- MessagePipe::Write: fails with BAD_STATE when the other dispatcher is
gone (the caller keeps the handles; see sys_msgpipe_write); otherwise the
packet is queued on the other side and READABLE raised there. -/
def MessagePipe.Write (p : MessagePipe) (side : Nat) (msg : MessagePacket) :
    Status × MessagePipe :=
  let other := other_side side
  if ¬ p.alive other then
    (Status.errBadState, p)
  else
    let p1 := p.setMessages other (p.messages other ++ [msg])
    let p2 := p1.setWaiter other ((p1.waiter other).Satisfied MX_SIGNAL_READABLE 0)
    (Status.noError, p2)

/-- A message-pipe endpoint dispatcher: its side and the pending message
peeked by BeginRead and not yet taken by AcceptRead. -/
structure MessagePipeDispatcher where
  side : Nat
  pending : Option MessagePacket
deriving DecidableEq, Repr

/-- MessagePipeDispatcher::BeginRead: if a pending message exists report its
sizes, otherwise read one from the pipe into `pending`. -/
def MessagePipeDispatcher.BeginRead (d : MessagePipeDispatcher) (p : MessagePipe) :
    Status × Option (Nat × Nat) × MessagePipeDispatcher × MessagePipe :=
  match d.pending with
  | some m => (Status.noError, some (m.data.length, m.handles.length), d, p)
  | none =>
    match MessagePipe.Read p d.side with
    | (Status.noError, some m, p') =>
      (Status.noError, some (m.data.length, m.handles.length),
        { d with pending := some m }, p')
    | (st, _, p') => (st, none, d, p')

/-- MessagePipeDispatcher::AcceptRead: move the pending message out; when
another thread already took it, BAD_STATE. -/
def MessagePipeDispatcher.AcceptRead (d : MessagePipeDispatcher) :
    Status × Option MessagePacket × MessagePipeDispatcher :=
  match d.pending with
  | none => (Status.errBadState, none, d)
  | some m => (Status.noError, some m, { d with pending := none })

/-- C4 counterexample: on a freshly created message pipe the constructor
only installs the satisfiable mask (`Satisfiable(READABLE | WRITABLE, 0)`);
nothing ever sets WRITABLE in the satisfied mask, so contrary to the claim
WRITABLE is not satisfied at creation (shown here on endpoint 0, whose full
satisfied mask is 0). -/
theorem c4_writable_not_satisfied_counterexample :
    (MessagePipe.init.waiter 0).satisfiable &&& MX_SIGNAL_WRITABLE =
        MX_SIGNAL_WRITABLE ∧
    (MessagePipe.init.waiter 0).satisfied &&& MX_SIGNAL_WRITABLE = 0 ∧
    (MessagePipe.init.waiter 0).satisfied = 0 := by
  refine ⟨?_, ?_, ?_⟩ <;> rfl

/-- C4 amended: immediately after a message pipe is created, both
endpoints' waiters have exactly READABLE and WRITABLE in the satisfiable
mask, and an empty satisfied mask — so neither READABLE nor WRITABLE is
satisfied. -/
theorem c4_initial_signal_masks (side : Nat) (hside : side = 0 ∨ side = 1) :
    (MessagePipe.init.waiter side).satisfiable =
        (MX_SIGNAL_READABLE ||| MX_SIGNAL_WRITABLE) ∧
    (MessagePipe.init.waiter side).satisfied = 0 := by
  rcases hside with h | h <;> subst h <;> exact ⟨rfl, rfl⟩

/-- Witness for c4_initial_signal_masks at side 0. -/
theorem c4_initial_signal_masks_witness :
    ((0 : Nat) = 0 ∨ (0 : Nat) = 1) ∧
    ((MessagePipe.init.waiter 0).satisfiable =
        (MX_SIGNAL_READABLE ||| MX_SIGNAL_WRITABLE) ∧
      (MessagePipe.init.waiter 0).satisfied = 0) :=
  ⟨Or.inl rfl, c4_initial_signal_masks 0 (Or.inl rfl)⟩

/-! Bit-level facts about the waiter updates used by the pipe. -/

theorem satisfied_peer_closed_bit2 (s : Nat) :
    ((s &&& (mask32 ^^^ 2)) ||| 4).testBit 2 = true := by
  have h4 : (4 : Nat).testBit 2 = true := by decide
  simp [Nat.testBit_lor, h4]

theorem satisfied_peer_closed_bit1 (s : Nat) :
    ((s &&& (mask32 ^^^ 2)) ||| 4).testBit 1 = false := by
  have h4 : (4 : Nat).testBit 1 = false := by decide
  have hm : (mask32 ^^^ 2).testBit 1 = false := by decide
  simp [Nat.testBit_lor, Nat.testBit_land, h4, hm]

theorem satisfied_peer_closed_bit0 (s : Nat) :
    ((s &&& (mask32 ^^^ 2)) ||| 4).testBit 0 = s.testBit 0 := by
  have h4 : (4 : Nat).testBit 0 = false := by decide
  have hm : (mask32 ^^^ 2).testBit 0 = true := by decide
  simp [Nat.testBit_lor, Nat.testBit_land, h4, hm]
  intro _
  decide

theorem clear_writable_bit1 (s : Nat) :
    ((s &&& (mask32 ^^^ 2)) ||| 0).testBit 1 = false := by
  have hm : (mask32 ^^^ 2).testBit 1 = false := by decide
  simp [Nat.testBit_lor, Nat.testBit_land, hm]

theorem clear_readable_bit0 (s : Nat) :
    ((s &&& (mask32 ^^^ 1)) ||| 0).testBit 0 = false := by
  have hm : (mask32 ^^^ 1).testBit 0 = false := by decide
  simp [Nat.testBit_lor, Nat.testBit_land, hm]
  intro _
  decide

/-- C5: destroying one endpoint dispatcher while the other is alive sets
PEER_CLOSED in the survivor's satisfied mask and clears WRITABLE from both
its satisfied and satisfiable masks; the survivor's message queue and its
READABLE satisfied bit are untouched, so READABLE stays satisfied while
unread messages remain; and a read on the survivor that drains the queue
(the peer now being dead) clears READABLE from both masks, while a read
that leaves messages queued leaves the READABLE satisfied bit unchanged. -/
theorem c5_peer_close_signals (p : MessagePipe) (side : Nat)
    (hside : side = 0 ∨ side = 1)
    (hother : p.alive (other_side side) = true) :
    ((p.OnDispatcherDestruction side).waiter (other_side side)).satisfied.testBit 2 = true ∧
    ((p.OnDispatcherDestruction side).waiter (other_side side)).satisfied.testBit 1 = false ∧
    ((p.OnDispatcherDestruction side).waiter (other_side side)).satisfiable.testBit 1 = false ∧
    ((p.OnDispatcherDestruction side).waiter (other_side side)).satisfied.testBit 0 =
      (p.waiter (other_side side)).satisfied.testBit 0 ∧
    (p.OnDispatcherDestruction side).messages (other_side side) =
      p.messages (other_side side) ∧
    (∀ st m q,
      MessagePipe.Read (p.OnDispatcherDestruction side) (other_side side) = (st, m, q) →
      (((p.OnDispatcherDestruction side).messages (other_side side)).tail = [] →
        (q.waiter (other_side side)).satisfied.testBit 0 = false ∧
        (q.waiter (other_side side)).satisfiable.testBit 0 = false) ∧
      (((p.OnDispatcherDestruction side).messages (other_side side)).tail ≠ [] →
        (q.waiter (other_side side)).satisfied.testBit 0 =
          ((p.OnDispatcherDestruction side).waiter (other_side side)).satisfied.testBit 0)) := by
  rcases hside with rfl | rfl
  · have h1 : p.alive1 = true := by
      simpa [other_side, MessagePipe.alive] using hother
    have hdest : p.OnDispatcherDestruction 0 =
        { p with alive0 := false,
                 waiter1 := (p.waiter1.Satisfied MX_SIGNAL_PEER_CLOSED
                     MX_SIGNAL_WRITABLE).Satisfiable 0 MX_SIGNAL_WRITABLE } := by
      simp [MessagePipe.OnDispatcherDestruction, other_side, MessagePipe.setAlive,
        MessagePipe.alive, MessagePipe.setWaiter, MessagePipe.waiter, h1]
    rw [hdest]
    refine ⟨?_, ?_, ?_, ?_, ?_, ?_⟩
    · simp only [other_side, MessagePipe.waiter, Waiter.Satisfied, Waiter.Satisfiable,
        MX_SIGNAL_PEER_CLOSED, MX_SIGNAL_WRITABLE]
      exact satisfied_peer_closed_bit2 _
    · simp only [other_side, MessagePipe.waiter, Waiter.Satisfied, Waiter.Satisfiable,
        MX_SIGNAL_PEER_CLOSED, MX_SIGNAL_WRITABLE]
      exact satisfied_peer_closed_bit1 _
    · simp only [other_side, MessagePipe.waiter, Waiter.Satisfied, Waiter.Satisfiable,
        MX_SIGNAL_PEER_CLOSED, MX_SIGNAL_WRITABLE]
      exact clear_writable_bit1 _
    · simp only [other_side, MessagePipe.waiter, Waiter.Satisfied, Waiter.Satisfiable,
        MX_SIGNAL_PEER_CLOSED, MX_SIGNAL_WRITABLE]
      exact satisfied_peer_closed_bit0 _
    · simp [other_side, MessagePipe.messages]
    · intro st m q heq
      have hq : q =
          (MessagePipe.Read
            { p with alive0 := false,
                     waiter1 := (p.waiter1.Satisfied MX_SIGNAL_PEER_CLOSED
                         MX_SIGNAL_WRITABLE).Satisfiable 0 MX_SIGNAL_WRITABLE }
            (other_side 0)).2.2 := by
        rw [heq]
      subst hq
      cases hms : p.messages1 with
      | nil =>
        constructor
        · intro _
          constructor
          · simp [MessagePipe.Read, other_side, MessagePipe.messages, MessagePipe.alive,
              MessagePipe.setMessages, MessagePipe.setWaiter, MessagePipe.waiter, hms,
              Waiter.Satisfied, Waiter.Satisfiable, MX_SIGNAL_READABLE]
            intros
            decide
          · simp [MessagePipe.Read, other_side, MessagePipe.messages, MessagePipe.alive,
              MessagePipe.setMessages, MessagePipe.setWaiter, MessagePipe.waiter, hms,
              Waiter.Satisfied, Waiter.Satisfiable, MX_SIGNAL_READABLE]
            intros
            decide
        · intro hne
          exact absurd (by simp [other_side, MessagePipe.messages, hms]) hne
      | cons m1 rest1 =>
        cases rest1 with
        | nil =>
          constructor
          · intro _
            constructor
            · simp [MessagePipe.Read, other_side, MessagePipe.messages, MessagePipe.alive,
                MessagePipe.setMessages, MessagePipe.setWaiter, MessagePipe.waiter, hms,
                Waiter.Satisfied, Waiter.Satisfiable, MX_SIGNAL_READABLE]
              intros
              decide
            · simp [MessagePipe.Read, other_side, MessagePipe.messages, MessagePipe.alive,
                MessagePipe.setMessages, MessagePipe.setWaiter, MessagePipe.waiter, hms,
                Waiter.Satisfied, Waiter.Satisfiable, MX_SIGNAL_READABLE]
              intros
              decide
          · intro hne
            exact absurd (by simp [other_side, MessagePipe.messages, hms]) hne
        | cons m2 rest2 =>
          constructor
          · intro hemp
            simp [other_side, MessagePipe.messages, hms] at hemp
          · intro _
            simp [MessagePipe.Read, other_side, MessagePipe.messages, MessagePipe.alive,
              MessagePipe.setMessages, MessagePipe.setWaiter, MessagePipe.waiter, hms]
  · have h1 : p.alive0 = true := by
      simpa [other_side, MessagePipe.alive] using hother
    have hdest : p.OnDispatcherDestruction 1 =
        { p with alive1 := false,
                 waiter0 := (p.waiter0.Satisfied MX_SIGNAL_PEER_CLOSED
                     MX_SIGNAL_WRITABLE).Satisfiable 0 MX_SIGNAL_WRITABLE } := by
      simp [MessagePipe.OnDispatcherDestruction, other_side, MessagePipe.setAlive,
        MessagePipe.alive, MessagePipe.setWaiter, MessagePipe.waiter, h1]
    rw [hdest]
    refine ⟨?_, ?_, ?_, ?_, ?_, ?_⟩
    · simp only [other_side, MessagePipe.waiter, Waiter.Satisfied, Waiter.Satisfiable,
        MX_SIGNAL_PEER_CLOSED, MX_SIGNAL_WRITABLE]
      exact satisfied_peer_closed_bit2 _
    · simp only [other_side, MessagePipe.waiter, Waiter.Satisfied, Waiter.Satisfiable,
        MX_SIGNAL_PEER_CLOSED, MX_SIGNAL_WRITABLE]
      exact satisfied_peer_closed_bit1 _
    · simp only [other_side, MessagePipe.waiter, Waiter.Satisfied, Waiter.Satisfiable,
        MX_SIGNAL_PEER_CLOSED, MX_SIGNAL_WRITABLE]
      exact clear_writable_bit1 _
    · simp only [other_side, MessagePipe.waiter, Waiter.Satisfied, Waiter.Satisfiable,
        MX_SIGNAL_PEER_CLOSED, MX_SIGNAL_WRITABLE]
      exact satisfied_peer_closed_bit0 _
    · simp [other_side, MessagePipe.messages]
    · intro st m q heq
      have hq : q =
          (MessagePipe.Read
            { p with alive1 := false,
                     waiter0 := (p.waiter0.Satisfied MX_SIGNAL_PEER_CLOSED
                         MX_SIGNAL_WRITABLE).Satisfiable 0 MX_SIGNAL_WRITABLE }
            (other_side 1)).2.2 := by
        rw [heq]
      subst hq
      cases hms : p.messages0 with
      | nil =>
        constructor
        · intro _
          constructor
          · simp [MessagePipe.Read, other_side, MessagePipe.messages, MessagePipe.alive,
              MessagePipe.setMessages, MessagePipe.setWaiter, MessagePipe.waiter, hms,
              Waiter.Satisfied, Waiter.Satisfiable, MX_SIGNAL_READABLE]
            intros
            decide
          · simp [MessagePipe.Read, other_side, MessagePipe.messages, MessagePipe.alive,
              MessagePipe.setMessages, MessagePipe.setWaiter, MessagePipe.waiter, hms,
              Waiter.Satisfied, Waiter.Satisfiable, MX_SIGNAL_READABLE]
            intros
            decide
        · intro hne
          exact absurd (by simp [other_side, MessagePipe.messages, hms]) hne
      | cons m1 rest1 =>
        cases rest1 with
        | nil =>
          constructor
          · intro _
            constructor
            · simp [MessagePipe.Read, other_side, MessagePipe.messages, MessagePipe.alive,
                MessagePipe.setMessages, MessagePipe.setWaiter, MessagePipe.waiter, hms,
                Waiter.Satisfied, Waiter.Satisfiable, MX_SIGNAL_READABLE]
              intros
              decide
            · simp [MessagePipe.Read, other_side, MessagePipe.messages, MessagePipe.alive,
                MessagePipe.setMessages, MessagePipe.setWaiter, MessagePipe.waiter, hms,
                Waiter.Satisfied, Waiter.Satisfiable, MX_SIGNAL_READABLE]
              intros
              decide
          · intro hne
            exact absurd (by simp [other_side, MessagePipe.messages, hms]) hne
        | cons m2 rest2 =>
          constructor
          · intro hemp
            simp [other_side, MessagePipe.messages, hms] at hemp
          · intro _
            simp [MessagePipe.Read, other_side, MessagePipe.messages, MessagePipe.alive,
              MessagePipe.setMessages, MessagePipe.setWaiter, MessagePipe.waiter, hms]

/-- Witness for c5_peer_close_signals on a freshly created pipe, destroying
endpoint 0 while endpoint 1 is alive. -/
theorem c5_peer_close_signals_witness :
    (((0 : Nat) = 0 ∨ (0 : Nat) = 1) ∧
      MessagePipe.init.alive (other_side 0) = true) ∧
    (((MessagePipe.init.OnDispatcherDestruction 0).waiter
        (other_side 0)).satisfied.testBit 2 = true ∧
      ((MessagePipe.init.OnDispatcherDestruction 0).waiter
        (other_side 0)).satisfied.testBit 1 = false ∧
      ((MessagePipe.init.OnDispatcherDestruction 0).waiter
        (other_side 0)).satisfiable.testBit 1 = false ∧
      ((MessagePipe.init.OnDispatcherDestruction 0).waiter
        (other_side 0)).satisfied.testBit 0 =
        (MessagePipe.init.waiter (other_side 0)).satisfied.testBit 0 ∧
      (MessagePipe.init.OnDispatcherDestruction 0).messages (other_side 0) =
        MessagePipe.init.messages (other_side 0) ∧
      (∀ st m q,
        MessagePipe.Read (MessagePipe.init.OnDispatcherDestruction 0)
            (other_side 0) = (st, m, q) →
        (((MessagePipe.init.OnDispatcherDestruction 0).messages
              (other_side 0)).tail = [] →
          (q.waiter (other_side 0)).satisfied.testBit 0 = false ∧
          (q.waiter (other_side 0)).satisfiable.testBit 0 = false) ∧
        (((MessagePipe.init.OnDispatcherDestruction 0).messages
              (other_side 0)).tail ≠ [] →
          (q.waiter (other_side 0)).satisfied.testBit 0 =
            ((MessagePipe.init.OnDispatcherDestruction 0).waiter
              (other_side 0)).satisfied.testBit 0))) :=
  ⟨⟨Or.inl rfl, by decide⟩,
    c5_peer_close_signals MessagePipe.init 0 (Or.inl rfl) (by decide)⟩

/-- C6: message-pipe reads are two-phase. With a message at the head of the
queue, BeginRead reports its byte size and handle count without consuming
it; a second BeginRead (a racing thread on the same endpoint) reports the
same sizes; the first AcceptRead dequeues exactly the peeked head message;
and the second AcceptRead returns BAD_STATE. -/
theorem c6_two_phase_read (p : MessagePipe) (d : MessagePipeDispatcher)
    (m : MessagePacket) (rest : List MessagePacket)
    (hpend : d.pending = none)
    (hmsgs : p.messages d.side = m :: rest) :
    ∃ d1 p1 d3,
      d.BeginRead p =
        (Status.noError, some (m.data.length, m.handles.length), d1, p1) ∧
      d1.BeginRead p1 =
        (Status.noError, some (m.data.length, m.handles.length), d1, p1) ∧
      d1.AcceptRead = (Status.noError, some m, d3) ∧
      d3.AcceptRead = (Status.errBadState, none, d3) := by
  have hhead : (p.messages d.side).head? = some m := by rw [hmsgs]; rfl
  have htail : (p.messages d.side).tail = rest := by rw [hmsgs]; rfl
  unfold MessagePipeDispatcher.BeginRead
  rw [hpend]
  unfold MessagePipe.Read
  rw [hhead]
  refine ⟨{ d with pending := some m }, _, { d with pending := none }, rfl, ?_, ?_, ?_⟩
  · rfl
  · rfl
  · rfl

/-- Witness for c6_two_phase_read: a pipe whose side-0 queue holds one
two-byte, one-handle message, read through a fresh endpoint dispatcher. -/
theorem c6_two_phase_read_witness :
    ((MessagePipeDispatcher.mk 0 none).pending = none ∧
      (MessagePipe.mk [⟨[10, 20], [3]⟩] [] true true ⟨0, 3⟩ ⟨0, 3⟩).messages
          (MessagePipeDispatcher.mk 0 none).side = [⟨[10, 20], [3]⟩]) ∧
    (∃ d1 p1 d3,
      (MessagePipeDispatcher.mk 0 none).BeginRead
          (MessagePipe.mk [⟨[10, 20], [3]⟩] [] true true ⟨0, 3⟩ ⟨0, 3⟩) =
        (Status.noError, some ((2 : Nat), (1 : Nat)), d1, p1) ∧
      d1.BeginRead p1 = (Status.noError, some ((2 : Nat), (1 : Nat)), d1, p1) ∧
      d1.AcceptRead = (Status.noError, some ⟨[10, 20], [3]⟩, d3) ∧
      d3.AcceptRead = (Status.errBadState, none, d3)) :=
  ⟨⟨rfl, rfl⟩,
    c6_two_phase_read (MessagePipe.mk [⟨[10, 20], [3]⟩] [] true true ⟨0, 3⟩ ⟨0, 3⟩)
      (MessagePipeDispatcher.mk 0 none) ⟨[10, 20], [3]⟩ [] rfl rfl⟩

/-! Process lifecycle (process_dispatcher.cpp). -/

/-- ProcessDispatcher::State. -/
inductive PState where
  | initial
  | running
  | dying
  | dead
deriving DecidableEq, Repr

/-- ProcessDispatcher::SetState: transitioning a DEAD process to any other
state panics (modelled as `none`); a transition to the current state is a
no-op; otherwise the state is updated (the DYING/DEAD side effects on
threads and the handle table are not part of this claim). -/
def SetState (cur s : PState) : Option PState :=
  if cur = PState.dead ∧ s ≠ PState.dead then none
  else if s = cur then some cur
  else some s

/-- ProcessDispatcher::Start: requires the INITIAL state, then starts the
initial thread (its outcome, from UserThread::Start which is not under
src/, is the `threadStart` parameter) and transitions to RUNNING. -/
def ProcessDispatcher.Start (st : PState) (threadStart : Status) : Status × PState :=
  if st ≠ PState.initial then (Status.errBadState, st)
  else if threadStart ≠ Status.noError then (threadStart, st)
  else (Status.noError, PState.running)

/-- ProcessDispatcher::AddThread: cannot add a thread in the DYING or DEAD
state. -/
def ProcessDispatcher.AddThread (st : PState) : Status :=
  if st = PState.dying ∨ st = PState.dead then Status.errBadState
  else Status.noError

/-- C9: Start succeeds only from INITIAL and then transitions to RUNNING;
in every other state it returns BAD_STATE and leaves the state unchanged;
AddThread fails with BAD_STATE in DYING or DEAD; and SetState never moves
a DEAD process to another state (the attempt panics instead). -/
theorem c9_lifecycle_gating (st : PState) (ts : Status) :
    (∀ s', ProcessDispatcher.Start st ts = (Status.noError, s') →
      st = PState.initial ∧ s' = PState.running) ∧
    (st ≠ PState.initial →
      ProcessDispatcher.Start st ts = (Status.errBadState, st)) ∧
    (st = PState.dying ∨ st = PState.dead →
      ProcessDispatcher.AddThread st = Status.errBadState) ∧
    (∀ s s', SetState PState.dead s = some s' → s' = PState.dead) := by
  refine ⟨?_, ?_, ?_, ?_⟩
  · intro s' h
    unfold ProcessDispatcher.Start at h
    by_cases h1 : st = PState.initial
    · subst h1
      simp only [ne_eq, not_true_eq_false, if_false, ite_false] at h
      by_cases h2 : ts = Status.noError
      · subst h2
        simp at h
        exact ⟨rfl, h.symm⟩
      · simp [h2] at h
    · simp [h1] at h
  · intro h1
    unfold ProcessDispatcher.Start
    simp [h1]
  · intro h1
    unfold ProcessDispatcher.AddThread
    simp [h1]
  · intro s s' h
    unfold SetState at h
    by_cases h1 : s = PState.dead
    · subst h1
      simp at h
      exact h.symm
    · simp [h1] at h

/-- Witness for c9_lifecycle_gating: a RUNNING process refuses Start with
BAD_STATE. -/
theorem c9_lifecycle_gating_witness :
    PState.running ≠ PState.initial ∧
    ProcessDispatcher.Start PState.running Status.noError =
      (Status.errBadState, PState.running) :=
  ⟨by decide, (c9_lifecycle_gating PState.running Status.noError).2.1 (by decide)⟩

/-! sys_handle_wait_many argument validation (syscalls file, unnamed part). -/

/-- kMaxWaitHandleCount: `256u`. -/
def kMaxWaitHandleCount : Nat := 256

/-- The argument-validation phase of sys_handle_wait_many. `some s` means
the call returns `s` before touching any handle; `none` means it proceeds
to the actual wait. With `count == 0` the call sleeps for the timeout
(`magenta_sleep`, whose outcome is the `sleepResult` parameter) and then
reports TIMED_OUT; a failed (interrupted) sleep is reported as is. -/
def sys_handle_wait_many_validate (count : Nat) (handlesNull signalsNull : Bool)
    (sleepResult : Status) : Option Status :=
  if count = 0 then
    some (if sleepResult ≠ Status.noError then sleepResult else Status.errTimedOut)
  else if handlesNull || signalsNull then
    some Status.errInvalidArgs
  else if count > kMaxWaitHandleCount then
    some Status.errInvalidArgs
  else
    none

/-- C10: with count 0 the call sleeps and then returns TIMED_OUT — and in no
case does a zero-count wait return success; with count above 256 it returns
INVALID_ARGS; a null handle array or null signals array with nonzero count
also returns INVALID_ARGS. -/
theorem c10_wait_many_validation (count : Nat) (hNull sNull : Bool)
    (sleepResult : Status) :
    (count = 0 → sleepResult = Status.noError →
      sys_handle_wait_many_validate count hNull sNull sleepResult =
        some Status.errTimedOut) ∧
    (count = 0 → ∀ s,
      sys_handle_wait_many_validate count hNull sNull sleepResult = some s →
      s ≠ Status.noError) ∧
    (count > kMaxWaitHandleCount →
      sys_handle_wait_many_validate count hNull sNull sleepResult =
        some Status.errInvalidArgs) ∧
    (count ≠ 0 → (hNull = true ∨ sNull = true) →
      sys_handle_wait_many_validate count hNull sNull sleepResult =
        some Status.errInvalidArgs) := by
  refine ⟨?_, ?_, ?_, ?_⟩
  · intro h0 hs
    subst h0
    simp [sys_handle_wait_many_validate, hs]
  · intro h0 s hret
    subst h0
    by_cases hs : sleepResult = Status.noError
    · simp [sys_handle_wait_many_validate, hs] at hret
      simp [← hret]
    · intro hcontra
      subst hcontra
      simp [sys_handle_wait_many_validate, hs] at hret
  · intro hgt
    have h0 : ¬ count = 0 := by
      unfold kMaxWaitHandleCount at hgt
      omega
    by_cases hn : hNull || sNull
    · simp [sys_handle_wait_many_validate, h0, hn]
    · simp [sys_handle_wait_many_validate, h0, hn, hgt]
  · intro h0 hn
    have hn' : (hNull || sNull) = true := by
      rcases hn with h | h <;> simp [h]
    simp [sys_handle_wait_many_validate, h0, hn']

/-- Witness for c10_wait_many_validation: a 300-handle wait is rejected with
INVALID_ARGS. -/
theorem c10_wait_many_validation_witness :
    (300 : Nat) > kMaxWaitHandleCount ∧
    sys_handle_wait_many_validate 300 false false Status.noError =
      some Status.errInvalidArgs :=
  ⟨by decide,
    (c10_wait_many_validation 300 false false Status.noError).2.2.1 (by decide)⟩

/-! Handle duplicate and replace (syscalls_magenta.cpp). -/

/-- DupHandle from magenta.cpp: allocates a fresh arena slot holding a copy
of the source handle with the given rights; a fresh handle's owning-process
id is 0. The arena allocator's choice of slot — or its failure — is the
`alloc` parameter. -/
def DupHandle (a : Arena) (source : Handle) (rights : Nat)
    (alloc : Option Nat) : Option (Arena × Nat) :=
  match alloc with
  | none => none
  | some j => some (((j, ⟨rights, 0, source.disp⟩) :: a), j)

/-- DeleteHandle's effect on the arena: the slot is zeroed and freed, i.e.
its key disappears. -/
def deleteSlot (a : Arena) (i : Nat) : Arena :=
  a.filter (fun e => e.1 != i)

/-- sys_handle_duplicate: look the source up, require the DUPLICATE right,
duplicate with either the source's rights (SAME_RIGHTS sentinel) or the
requested mask if it is a subset, then add the new handle to the table and
return its value. -/
def sys_handle_duplicate (a : Arena) (koid mixer hv rights : Nat)
    (alloc : Option Nat) : Status × Arena × Option Nat :=
  match GetHandle_NoLock a koid mixer hv with
  | none => (Status.errBadHandle, a, none)
  | some (_, source) =>
    if ¬ magenta_rights_check source.rights MX_RIGHT_DUPLICATE then
      (Status.errAccessDenied, a, none)
    else if rights = MX_RIGHT_SAME_RIGHTS then
      match DupHandle a source source.rights alloc with
      | none => (Status.errNoMemory, a, none)
      | some (a1, j) =>
        (Status.noError, AddHandle_NoLock a1 j koid,
          some (map_handle_to_value j mixer))
    else if ¬ (source.rights &&& rights = rights) then
      (Status.errInvalidArgs, a, none)
    else
      match DupHandle a source rights alloc with
      | none => (Status.errNoMemory, a, none)
      | some (a1, j) =>
        (Status.noError, AddHandle_NoLock a1 j koid,
          some (map_handle_to_value j mixer))

/-- sys_handle_replace: remove the source handle; build the replacement
(source's rights under SAME_RIGHTS, or the requested subset); if that fails
put the source back (`AddHandle_NoLock(mxtl::move(source))`) and report
INVALID_ARGS (rights not a subset) or NO_MEMORY; on success add the
replacement and let the source handle be destroyed. -/
def sys_handle_replace (a : Arena) (koid mixer hv rights : Nat)
    (alloc : Option Nat) : Status × Arena × Option Nat :=
  match GetHandle_NoLock a koid mixer hv with
  | none => (Status.errBadHandle, a, none)
  | some (i, source) =>
    let a1 := setProcId a i 0
    if rights = MX_RIGHT_SAME_RIGHTS then
      match DupHandle a1 source source.rights alloc with
      | none => (Status.errNoMemory, AddHandle_NoLock a1 i koid, none)
      | some (a2, j) =>
        (Status.noError, deleteSlot (AddHandle_NoLock a2 j koid) i,
          some (map_handle_to_value j mixer))
    else if ¬ (source.rights &&& rights = rights) then
      (Status.errInvalidArgs, AddHandle_NoLock a1 i koid, none)
    else
      match DupHandle a1 source rights alloc with
      | none => (Status.errNoMemory, AddHandle_NoLock a1 i koid, none)
      | some (a2, j) =>
        (Status.noError, deleteSlot (AddHandle_NoLock a2 j koid) i,
          some (map_handle_to_value j mixer))

/-! Arena helper lemmas. -/

theorem setProcId_setProcId (a : Arena) (i p q : Nat) :
    setProcId (setProcId a i p) i q = setProcId a i q := by
  unfold setProcId
  rw [List.map_map]
  apply List.map_congr_left
  intro e _
  by_cases he : e.1 = i <;> simp [he]

theorem setProcId_not_mem (a : Arena) (i p : Nat)
    (hni : ∀ e ∈ a, e.1 ≠ i) : setProcId a i p = a := by
  unfold setProcId
  conv_rhs => rw [← List.map_id a]
  apply List.map_congr_left
  intro e he
  simp [hni e he]

theorem setProcId_self (a : Arena) (i : Nat) (h : Handle)
    (hnodup : (a.map Prod.fst).Nodup) (hlk : lookupSlot a i = some h) :
    setProcId a i h.procId = a := by
  induction a with
  | nil => rfl
  | cons e t ih =>
    rcases e with ⟨k, v⟩
    simp only [List.map_cons, List.nodup_cons] at hnodup
    by_cases hk : k = i
    · subst hk
      have hv : v = h := by
        simp [lookupSlot, List.lookup] at hlk
        exact hlk
      subst hv
      have hni : ∀ e ∈ t, e.1 ≠ k := by
        intro e he hcontra
        exact hnodup.1 (hcontra ▸ List.mem_map_of_mem Prod.fst he)
      simp [setProcId]
      exact setProcId_not_mem t k v.procId hni
    · have hlk' : lookupSlot t i = some h := by
        have hbe : (i == k) = false := beq_eq_false_iff_ne.mpr (fun hc => hk hc.symm)
        simpa [lookupSlot, List.lookup, hbe] using hlk
      have := ih hnodup.2 hlk'
      simp [setProcId, hk] at this ⊢
      exact this

theorem setProcId_restore (a : Arena) (i : Nat) (h : Handle)
    (hnodup : (a.map Prod.fst).Nodup) (hlk : lookupSlot a i = some h) :
    setProcId (setProcId a i 0) i h.procId = a := by
  rw [setProcId_setProcId]
  exact setProcId_self a i h hnodup hlk

/-- Looking up a slot just allocated at the head and then retagged to the
calling process. -/
theorem lookupSlot_setProcId_cons (a : Arena) (j koid : Nat) (h : Handle) :
    lookupSlot (setProcId ((j, h) :: a) j koid) j = some { h with procId := koid } := by
  unfold setProcId
  simp only [List.map_cons, if_true, ite_true, eq_self_iff_true]
  unfold lookupSlot
  simp [List.lookup]

/-- C7: duplicating requires the DUPLICATE right; with the SAME_RIGHTS
sentinel the duplicate carries exactly the source's rights; with an
explicit subset mask it carries exactly that mask; with a mask that is not
a subset the call returns INVALID_ARGS and the table is unchanged; and no
successful duplicate carries rights beyond its source's. -/
theorem c7_handle_duplicate (a : Arena) (koid mixer hv rights : Nat)
    (alloc : Option Nat) (i : Nat) (source : Handle)
    (hsrc : GetHandle_NoLock a koid mixer hv = some (i, source)) :
    (¬ magenta_rights_check source.rights MX_RIGHT_DUPLICATE = true →
      sys_handle_duplicate a koid mixer hv rights alloc =
        (Status.errAccessDenied, a, none)) ∧
    (∀ j, magenta_rights_check source.rights MX_RIGHT_DUPLICATE = true →
      rights = MX_RIGHT_SAME_RIGHTS → alloc = some j →
      (sys_handle_duplicate a koid mixer hv rights alloc).1 = Status.noError ∧
      lookupSlot (sys_handle_duplicate a koid mixer hv rights alloc).2.1 j =
        some ⟨source.rights, koid, source.disp⟩) ∧
    (∀ j, magenta_rights_check source.rights MX_RIGHT_DUPLICATE = true →
      rights ≠ MX_RIGHT_SAME_RIGHTS → source.rights &&& rights = rights →
      alloc = some j →
      (sys_handle_duplicate a koid mixer hv rights alloc).1 = Status.noError ∧
      lookupSlot (sys_handle_duplicate a koid mixer hv rights alloc).2.1 j =
        some ⟨rights, koid, source.disp⟩) ∧
    (magenta_rights_check source.rights MX_RIGHT_DUPLICATE = true →
      rights ≠ MX_RIGHT_SAME_RIGHTS → ¬ (source.rights &&& rights = rights) →
      sys_handle_duplicate a koid mixer hv rights alloc =
        (Status.errInvalidArgs, a, none)) ∧
    (∀ st a' v',
      sys_handle_duplicate a koid mixer hv rights alloc = (st, a', v') →
      st = Status.noError → ∀ j, alloc = some j →
      ∃ h', lookupSlot a' j = some h' ∧
        h'.rights &&& source.rights = h'.rights) := by
  refine ⟨?_, ?_, ?_, ?_, ?_⟩
  · intro hnr
    unfold sys_handle_duplicate
    rw [hsrc]
    simp [hnr]
  · intro j hr hsame halloc
    subst hsame halloc
    have hrun : sys_handle_duplicate a koid mixer hv MX_RIGHT_SAME_RIGHTS (some j) =
        (Status.noError,
          AddHandle_NoLock ((j, ⟨source.rights, 0, source.disp⟩) :: a) j koid,
          some (map_handle_to_value j mixer)) := by
      unfold sys_handle_duplicate
      rw [hsrc]
      simp [hr, DupHandle]
    rw [hrun]
    exact ⟨rfl, by
      simpa [AddHandle_NoLock] using
        lookupSlot_setProcId_cons a j koid ⟨source.rights, 0, source.disp⟩⟩
  · intro j hr hnsame hsub halloc
    subst halloc
    have hrun : sys_handle_duplicate a koid mixer hv rights (some j) =
        (Status.noError,
          AddHandle_NoLock ((j, ⟨rights, 0, source.disp⟩) :: a) j koid,
          some (map_handle_to_value j mixer)) := by
      unfold sys_handle_duplicate
      rw [hsrc]
      simp [hr, hnsame, hsub, DupHandle]
    rw [hrun]
    exact ⟨rfl, by
      simpa [AddHandle_NoLock] using
        lookupSlot_setProcId_cons a j koid ⟨rights, 0, source.disp⟩⟩
  · intro hr hnsame hnsub
    unfold sys_handle_duplicate
    rw [hsrc]
    simp [hr, hnsame, hnsub]
  · intro st a' v' hrun hst j halloc
    subst hst halloc
    unfold sys_handle_duplicate at hrun
    rw [hsrc] at hrun
    by_cases hr : magenta_rights_check source.rights MX_RIGHT_DUPLICATE = true
    · by_cases hsame : rights = MX_RIGHT_SAME_RIGHTS
      · subst hsame
        simp [hr, DupHandle] at hrun
        refine ⟨⟨source.rights, koid, source.disp⟩, ?_, Nat.and_self _⟩
        rw [← hrun.1]
        simpa [AddHandle_NoLock] using
          lookupSlot_setProcId_cons a j koid ⟨source.rights, 0, source.disp⟩
      · by_cases hsub : source.rights &&& rights = rights
        · simp [hr, hsame, hsub, DupHandle] at hrun
          refine ⟨⟨rights, koid, source.disp⟩, ?_, ?_⟩
          · rw [← hrun.1]
            simpa [AddHandle_NoLock] using
              lookupSlot_setProcId_cons a j koid ⟨rights, 0, source.disp⟩
          · rw [Nat.and_comm]
            exact hsub
        · simp [hr, hsame, hsub] at hrun
    · simp [hr] at hrun

/-- Witness for c7_handle_duplicate: duplicating a handle with rights 0b111
asking for 0b110 yields a new handle with rights 0b110. -/
theorem c7_handle_duplicate_witness :
    GetHandle_NoLock [(0, ⟨7, 9, 5⟩)] 9 0 1 = some (0, ⟨7, 9, 5⟩) ∧
    ((sys_handle_duplicate [(0, ⟨7, 9, 5⟩)] 9 0 1 6 (some 1)).1 = Status.noError ∧
      lookupSlot (sys_handle_duplicate [(0, ⟨7, 9, 5⟩)] 9 0 1 6 (some 1)).2.1 1 =
        some ⟨6, 9, 5⟩) :=
  ⟨by decide,
    (c7_handle_duplicate [(0, ⟨7, 9, 5⟩)] 9 0 1 6 (some 1) 0 ⟨7, 9, 5⟩
        (by decide)).2.2.1 1 (by decide) (by decide) (by decide) rfl⟩

/-- Inversion of a successful GetHandle_NoLock: the returned index is the
decoded one, it is in range, the slot holds the returned handle, and that
handle is owned by the caller. -/
theorem GetHandle_NoLock_inv (a : Arena) (koid mixer v i : Nat) (h : Handle)
    (hsrc : GetHandle_NoLock a koid mixer v = some (i, h)) :
    decode_handle_id v mixer = i ∧ i < kMaxHandleCount ∧
    lookupSlot a i = some h ∧ h.procId = koid := by
  unfold GetHandle_NoLock map_value_to_handle MapU32ToHandle at hsrc
  by_cases hlt : decode_handle_id v mixer < kMaxHandleCount
  · rw [if_pos hlt] at hsrc
    cases hlk : lookupSlot a (decode_handle_id v mixer) with
    | none =>
      rw [hlk] at hsrc
      cases hsrc
    | some h' =>
      rw [hlk] at hsrc
      by_cases hp : h'.procId = koid
      · simp only [hp, if_true, ite_true, eq_self_iff_true] at hsrc
        obtain ⟨hi, hh⟩ := Prod.mk.injEq .. ▸ Option.some.injEq .. ▸ hsrc
        subst hi
        subst hh
        exact ⟨rfl, hlt, hlk, hp⟩
      · simp only [hp, if_false, ite_false] at hsrc
        cases hsrc
  · rw [if_neg hlt] at hsrc
    cases hsrc

theorem lookupSlot_deleteSlot_self (a : Arena) (i : Nat) :
    lookupSlot (deleteSlot a i) i = none := by
  induction a with
  | nil => rfl
  | cons e t ih =>
    rcases e with ⟨k, v⟩
    by_cases hk : k = i
    · subst hk
      simpa [deleteSlot, List.filter] using ih
    · have hne : (k != i) = true := by simpa using hk
      have hbe : (i == k) = false := beq_eq_false_iff_ne.mpr (fun hc => hk hc.symm)
      simp only [deleteSlot, List.filter, hne] at ih ⊢
      simpa [lookupSlot, List.lookup, hbe] using ih

/-- C8: replace removes the original handle and installs the replacement
with the new rights (the source's rights under SAME_RIGHTS); if producing
the replacement fails — requested rights not a subset, or allocation
failure — the original handle is reinstated and the table is exactly the
one before the call, so the original value still works. -/
theorem c8_handle_replace (a : Arena) (koid mixer hv rights : Nat)
    (alloc : Option Nat) (i : Nat) (source : Handle)
    (hnodup : (a.map Prod.fst).Nodup)
    (hsrc : GetHandle_NoLock a koid mixer hv = some (i, source)) :
    (∀ j, alloc = some j → lookupSlot a j = none →
      (rights = MX_RIGHT_SAME_RIGHTS ∨ source.rights &&& rights = rights) →
      (sys_handle_replace a koid mixer hv rights alloc).1 = Status.noError ∧
      GetHandle_NoLock (sys_handle_replace a koid mixer hv rights alloc).2.1
        koid mixer hv = none ∧
      lookupSlot (sys_handle_replace a koid mixer hv rights alloc).2.1 j =
        some ⟨if rights = MX_RIGHT_SAME_RIGHTS then source.rights else rights,
          koid, source.disp⟩) ∧
    (rights ≠ MX_RIGHT_SAME_RIGHTS → ¬ (source.rights &&& rights = rights) →
      sys_handle_replace a koid mixer hv rights alloc =
        (Status.errInvalidArgs, a, none)) ∧
    (alloc = none →
      (rights = MX_RIGHT_SAME_RIGHTS ∨ source.rights &&& rights = rights) →
      sys_handle_replace a koid mixer hv rights alloc =
        (Status.errNoMemory, a, none)) := by
  obtain ⟨hdec, hrange, hlk, hpid⟩ := GetHandle_NoLock_inv a koid mixer hv i source hsrc
  have hrestore : AddHandle_NoLock (setProcId a i 0) i koid = a := by
    unfold AddHandle_NoLock
    rw [setProcId_setProcId]
    have := setProcId_self a i source hnodup hlk
    rw [hpid] at this
    exact this
  refine ⟨?_, ?_, ?_⟩
  · intro j halloc hfresh hok
    subst halloc
    have hji : j ≠ i := by
      intro hcontra
      rw [hcontra, hlk] at hfresh
      cases hfresh
    have hshape : ∀ r : Nat,
        lookupSlot
          (deleteSlot
            (AddHandle_NoLock ((j, ⟨r, 0, source.disp⟩) :: setProcId a i 0) j koid) i)
          j = some ⟨r, koid, source.disp⟩ ∧
        lookupSlot
          (deleteSlot
            (AddHandle_NoLock ((j, ⟨r, 0, source.disp⟩) :: setProcId a i 0) j koid) i)
          i = none := by
      intro r
      constructor
      · have hne : (j != i) = true := by simpa using hji
        unfold AddHandle_NoLock setProcId
        simp only [List.map_cons, if_true, ite_true, eq_self_iff_true]
        unfold deleteSlot
        simp only [List.filter, hne]
        unfold lookupSlot
        simp [List.lookup]
      · exact lookupSlot_deleteSlot_self _ i
    rcases hok with hsame | hsub
    · subst hsame
      have hrun : sys_handle_replace a koid mixer hv MX_RIGHT_SAME_RIGHTS (some j) =
          (Status.noError,
            deleteSlot
              (AddHandle_NoLock
                ((j, ⟨source.rights, 0, source.disp⟩) :: setProcId a i 0) j koid) i,
            some (map_handle_to_value j mixer)) := by
        unfold sys_handle_replace
        rw [hsrc]
        simp [DupHandle]
      rw [hrun]
      refine ⟨rfl, ?_, ?_⟩
      · unfold GetHandle_NoLock map_value_to_handle MapU32ToHandle
        rw [hdec, if_pos hrange, (hshape source.rights).2]
      · simpa using (hshape source.rights).1
    · by_cases hsame : rights = MX_RIGHT_SAME_RIGHTS
      · subst hsame
        have hrun : sys_handle_replace a koid mixer hv MX_RIGHT_SAME_RIGHTS (some j) =
            (Status.noError,
              deleteSlot
                (AddHandle_NoLock
                  ((j, ⟨source.rights, 0, source.disp⟩) :: setProcId a i 0) j koid) i,
              some (map_handle_to_value j mixer)) := by
          unfold sys_handle_replace
          rw [hsrc]
          simp [DupHandle]
        rw [hrun]
        refine ⟨rfl, ?_, ?_⟩
        · unfold GetHandle_NoLock map_value_to_handle MapU32ToHandle
          rw [hdec, if_pos hrange, (hshape source.rights).2]
        · simpa using (hshape source.rights).1
      · have hrun : sys_handle_replace a koid mixer hv rights (some j) =
            (Status.noError,
              deleteSlot
                (AddHandle_NoLock
                  ((j, ⟨rights, 0, source.disp⟩) :: setProcId a i 0) j koid) i,
              some (map_handle_to_value j mixer)) := by
          unfold sys_handle_replace
          rw [hsrc]
          simp [hsame, hsub, DupHandle]
        rw [hrun]
        refine ⟨rfl, ?_, ?_⟩
        · unfold GetHandle_NoLock map_value_to_handle MapU32ToHandle
          rw [hdec, if_pos hrange, (hshape rights).2]
        · simpa [hsame] using (hshape rights).1
  · intro hnsame hnsub
    unfold sys_handle_replace
    rw [hsrc]
    simp [hnsame, hnsub, hrestore]
  · intro halloc hok
    subst halloc
    rcases hok with hsame | hsub
    · subst hsame
      unfold sys_handle_replace
      rw [hsrc]
      simp [DupHandle, hrestore]
    · by_cases hsame : rights = MX_RIGHT_SAME_RIGHTS
      · subst hsame
        unfold sys_handle_replace
        rw [hsrc]
        simp [DupHandle, hrestore]
      · unfold sys_handle_replace
        rw [hsrc]
        simp [hsame, hsub, DupHandle, hrestore]

/-- Witness for c8_handle_replace: replacing a rights-0b111 handle with
rights 0b100 removes the old value and installs the replacement. -/
theorem c8_handle_replace_witness :
    ((([(0, ⟨7, 9, 5⟩)] : Arena).map Prod.fst).Nodup ∧
      GetHandle_NoLock [(0, ⟨7, 9, 5⟩)] 9 0 1 = some (0, ⟨7, 9, 5⟩) ∧
      lookupSlot [(0, ⟨7, 9, 5⟩)] 1 = none ∧
      ((7 : Nat) &&& 4 = 4)) ∧
    ((sys_handle_replace [(0, ⟨7, 9, 5⟩)] 9 0 1 4 (some 1)).1 = Status.noError ∧
      GetHandle_NoLock (sys_handle_replace [(0, ⟨7, 9, 5⟩)] 9 0 1 4 (some 1)).2.1
        9 0 1 = none ∧
      lookupSlot (sys_handle_replace [(0, ⟨7, 9, 5⟩)] 9 0 1 4 (some 1)).2.1 1 =
        some ⟨if (4 : Nat) = MX_RIGHT_SAME_RIGHTS then (7 : Nat) else 4, 9, 5⟩) :=
  ⟨⟨by decide, by decide, by decide, by decide⟩,
    (c8_handle_replace [(0, ⟨7, 9, 5⟩)] 9 0 1 4 (some 1) 0 ⟨7, 9, 5⟩
        (by decide) (by decide)).1 1 rfl (by decide) (Or.inr (by decide))⟩

/-! sys_msgpipe_write: handle transfer with undo (syscalls_magenta.cpp). -/

/-- kMaxMessageSize: `65536u`. -/
def kMaxMessageSize : Nat := 65536

/-- kMaxMessageHandles: `1024u`. -/
def kMaxMessageHandles : Nat := 1024

/-- First pass of sys_msgpipe_write's handle loop: validate every value
(presence; the self-pipe rule — a handle to the pipe itself is only allowed
on reply pipes; the TRANSFER right) and collect the handle pointers (slot
indices), recording the position of the last occurrence of the pipe's own
handle (`reply_pipe_found`). No table mutation happens here. -/
def msgpipe_collect (a : Arena) (koid mixer pipeDisp : Nat) (isReply : Bool) :
    List Nat → Nat → Except Status (List Nat × Option Nat)
  | [], _ => .ok ([], none)
  | v :: rest, ix =>
    match GetHandle_NoLock a koid mixer v with
    | none => .error Status.errBadHandle
    | some (i, h) =>
      if h.disp = pipeDisp ∧ ¬ isReply then .error Status.errNotSupported
      else if ¬ magenta_rights_check h.rights MX_RIGHT_TRANSFER then
        .error Status.errAccessDenied
      else
        match msgpipe_collect a koid mixer pipeDisp isReply rest (ix + 1) with
        | .error e => .error e
        | .ok (is, rf) =>
          .ok (i :: is, if h.disp = pipeDisp then some (rf.getD ix) else rf)

/-- Second pass: remove each handle value from the table in order, stopping
at the first failure (a duplicate value whose handle is already gone).
Returns the arena after the removals performed, how many were performed,
and whether a failure occurred. -/
def msgpipe_remove (koid mixer : Nat) : Arena → List Nat → Arena × Nat × Bool
  | a, [] => (a, 0, false)
  | a, v :: rest =>
    match RemoveHandle_NoLock a koid mixer v with
    | none => (a, 0, true)
    | some (a1, _) =>
      let r := msgpipe_remove koid mixer a1 rest
      (r.1, r.2.1 + 1, r.2.2)

/-- The unwind loop of sys_msgpipe_write: UndoRemoveHandle_NoLock on each
value, in array order. -/
def msgpipe_undo (koid mixer : Nat) (a : Arena) (vs : List Nat) : Arena :=
  vs.foldl (fun b v => UndoRemoveHandle_NoLock b koid mixer v) a

/-- sys_msgpipe_write, from its own argument checks onward. The pipe-handle
resolution (`GetDispatcher(handle_value, &msg_pipe, MX_RIGHT_WRITE)`, whose
helper lives outside src/) is modelled as a lookup plus a dispatcher-id and
rights check against the pipe `p` at `side` with id `pipeDisp`; the user
copies and array allocations, which fail before any table mutation, are not
modelled; `allocFail` is the AllocChecker outcome for the MessagePacket in
MessagePipeDispatcher::Write. -/
def sys_msgpipe_write (a : Arena) (koid mixer pipeHv : Nat) (p : MessagePipe)
    (side pipeDisp : Nat) (isReply : Bool) (dataBytes vals : List Nat)
    (allocFail : Bool) : Status × Arena × MessagePipe :=
  match GetHandle_NoLock a koid mixer pipeHv with
  | none => (Status.errBadHandle, a, p)
  | some (_, ph) =>
    if ¬ (ph.disp = pipeDisp) then (Status.errWrongType, a, p)
    else if ¬ magenta_rights_check ph.rights MX_RIGHT_WRITE then
      (Status.errAccessDenied, a, p)
    else if dataBytes.length > kMaxMessageSize then (Status.errTooBig, a, p)
    else if vals.length > kMaxMessageHandles then (Status.errTooBig, a, p)
    else
      match msgpipe_collect a koid mixer pipeDisp isReply vals 0 with
      | .error e => (e, a, p)
      | .ok (idxs, rf) =>
        if isReply ∧ (vals.length = 0 ∨ rf ≠ some (vals.length - 1)) then
          (Status.errBadState, a, p)
        else
          let r := msgpipe_remove koid mixer a vals
          if r.2.2 then
            (Status.errInvalidArgs, msgpipe_undo koid mixer r.1 (vals.take r.2.1), p)
          else
            let w := if allocFail then (Status.errNoMemory, p)
              else MessagePipe.Write p side ⟨dataBytes, idxs⟩
            if w.1 ≠ Status.noError then
              (w.1, msgpipe_undo koid mixer r.1 vals, w.2)
            else
              (Status.noError, r.1, w.2)

/-! Lemmas about setProcId, lookup and removal used for write atomicity. -/

theorem lookupSlot_setProcId (b : Arena) (j p i : Nat) :
    lookupSlot (setProcId b j p) i =
      (lookupSlot b i).map (fun h => if i = j then { h with procId := p } else h) := by
  induction b with
  | nil => rfl
  | cons e t ih =>
    rcases e with ⟨k, v⟩
    by_cases hik : i = k
    · subst hik
      by_cases hkj : i = j
      · subst hkj
        unfold setProcId
        simp only [List.map_cons, if_true, ite_true, eq_self_iff_true]
        unfold lookupSlot
        simp [List.lookup]
      · unfold setProcId
        simp only [List.map_cons]
        rw [if_neg (by simpa using hkj)]
        unfold lookupSlot
        simp [List.lookup, hkj]
    · have hbe : (i == k) = false := beq_eq_false_iff_ne.mpr hik
      by_cases hkj : k = j
      · subst hkj
        simp only [setProcId, List.map_cons, if_pos rfl] at ih ⊢
        simp only [lookupSlot, List.lookup, hbe] at ih ⊢
        exact ih
      · simp only [setProcId, List.map_cons, if_neg hkj] at ih ⊢
        simp only [lookupSlot, List.lookup, hbe] at ih ⊢
        exact ih

theorem setProcId_comm (b : Arena) (i j p q : Nat) (hij : i ≠ j) :
    setProcId (setProcId b i p) j q = setProcId (setProcId b j q) i p := by
  unfold setProcId
  rw [List.map_map, List.map_map]
  apply List.map_congr_left
  intro e _
  by_cases hei : e.1 = i
  · have hej : ¬ e.1 = j := by rw [hei]; exact hij
    simp [hei, hej, hij]
  · by_cases hej : e.1 = j
    · simp [hei, hej, hij, Ne.symm hij]
    · simp [hei, hej]

theorem setProcId_keys (a : Arena) (i p : Nat) :
    (setProcId a i p).map Prod.fst = a.map Prod.fst := by
  unfold setProcId
  rw [List.map_map]
  apply List.map_congr_left
  intro e _
  by_cases he : e.1 = i <;> simp [he]

/-- Zeroing any slot's owner preserves a failed lookup (the caller's koid is
nonzero, so a cleared slot never matches). -/
theorem GetHandle_none_setProcId_zero (a : Arena) (koid mixer v j : Nat)
    (hk : koid ≠ 0) (hnone : GetHandle_NoLock a koid mixer v = none) :
    GetHandle_NoLock (setProcId a j 0) koid mixer v = none := by
  unfold GetHandle_NoLock map_value_to_handle MapU32ToHandle at hnone ⊢
  by_cases hlt : decode_handle_id v mixer < kMaxHandleCount
  · rw [if_pos hlt] at hnone ⊢
    rw [lookupSlot_setProcId]
    cases hlk : lookupSlot a (decode_handle_id v mixer) with
    | none => rfl
    | some h =>
      rw [hlk] at hnone
      by_cases hp : h.procId = koid
      · simp [hp] at hnone
      · by_cases hij : decode_handle_id v mixer = j
        · simp [hij, Ne.symm hk]
        · simp [hij, hp]
  · rw [if_neg hlt]

theorem RemoveHandle_NoLock_inv (a : Arena) (koid mixer v : Nat)
    (a1 : Arena) (i : Nat)
    (hrm : RemoveHandle_NoLock a koid mixer v = some (a1, i)) :
    ∃ h, GetHandle_NoLock a koid mixer v = some (i, h) ∧ a1 = setProcId a i 0 := by
  unfold RemoveHandle_NoLock at hrm
  cases hg : GetHandle_NoLock a koid mixer v with
  | none =>
    rw [hg] at hrm
    cases hrm
  | some pr =>
    rcases pr with ⟨i0, h⟩
    rw [hg] at hrm
    simp only [Option.some.injEq, Prod.mk.injEq] at hrm
    refine ⟨h, ?_, ?_⟩
    · rw [hrm.2]
    · rw [← hrm.1, hrm.2]

/-- A value looked up through a slot just cleared no longer resolves. -/
theorem GetHandle_after_remove_self (a : Arena) (koid mixer v i : Nat) (h : Handle)
    (hk : koid ≠ 0)
    (hg : GetHandle_NoLock a koid mixer v = some (i, h)) :
    GetHandle_NoLock (setProcId a i 0) koid mixer v = none := by
  obtain ⟨hdec, hrange, hlk, _⟩ := GetHandle_NoLock_inv a koid mixer v i h hg
  unfold GetHandle_NoLock map_value_to_handle MapU32ToHandle
  rw [hdec, if_pos hrange, lookupSlot_setProcId, hlk]
  simp [Ne.symm hk]

theorem msgpipe_remove_cons_none (koid mixer : Nat) (a : Arena) (v : Nat)
    (rest : List Nat) (hrw : RemoveHandle_NoLock a koid mixer v = none) :
    msgpipe_remove koid mixer a (v :: rest) = (a, 0, true) := by
  unfold msgpipe_remove
  rw [hrw]

theorem msgpipe_remove_cons_some (koid mixer : Nat) (a : Arena) (v : Nat)
    (rest : List Nat) (a1 : Arena) (i : Nat)
    (hrw : RemoveHandle_NoLock a koid mixer v = some (a1, i)) :
    msgpipe_remove koid mixer a (v :: rest) =
      ((msgpipe_remove koid mixer a1 rest).1,
        (msgpipe_remove koid mixer a1 rest).2.1 + 1,
        (msgpipe_remove koid mixer a1 rest).2.2) := by
  conv_lhs => unfold msgpipe_remove
  rw [hrw]

theorem msgpipe_remove_length (koid mixer : Nat) :
    ∀ vs (a : Arena), (msgpipe_remove koid mixer a vs).2.2 = false →
    (msgpipe_remove koid mixer a vs).2.1 = vs.length := by
  intro vs
  induction vs with
  | nil => intro a _; rfl
  | cons v rest ih =>
    intro a hf
    cases hrw : RemoveHandle_NoLock a koid mixer v with
    | none =>
      rw [msgpipe_remove_cons_none koid mixer a v rest hrw] at hf
      cases hf
    | some pr =>
      rcases pr with ⟨a1, i⟩
      rw [msgpipe_remove_cons_some koid mixer a v rest a1 i hrw] at hf ⊢
      simp only [List.length_cons]
      exact congrArg (fun n => n + 1) (ih a1 hf)

theorem msgpipe_remove_preserves_none (koid mixer : Nat) (hk : koid ≠ 0) :
    ∀ vs (a : Arena) (v : Nat), GetHandle_NoLock a koid mixer v = none →
    GetHandle_NoLock (msgpipe_remove koid mixer a vs).1 koid mixer v = none := by
  intro vs
  induction vs with
  | nil => intro a v hnone; exact hnone
  | cons w rest ih =>
    intro a v hnone
    cases hrw : RemoveHandle_NoLock a koid mixer w with
    | none =>
      rw [msgpipe_remove_cons_none koid mixer a w rest hrw]
      exact hnone
    | some pr =>
      rcases pr with ⟨a1, i⟩
      rw [msgpipe_remove_cons_some koid mixer a w rest a1 i hrw]
      obtain ⟨h, _, ha1⟩ := RemoveHandle_NoLock_inv a koid mixer w a1 i hrw
      subst ha1
      exact ih _ v (GetHandle_none_setProcId_zero a koid mixer v i hk hnone)

theorem msgpipe_remove_all_removed (koid mixer : Nat) (hk : koid ≠ 0) :
    ∀ vs (a : Arena), (msgpipe_remove koid mixer a vs).2.2 = false →
    ∀ v ∈ vs, GetHandle_NoLock (msgpipe_remove koid mixer a vs).1 koid mixer v = none := by
  intro vs
  induction vs with
  | nil => intro a _ v hv; cases hv
  | cons w rest ih =>
    intro a hf v hv
    cases hrw : RemoveHandle_NoLock a koid mixer w with
    | none =>
      rw [msgpipe_remove_cons_none koid mixer a w rest hrw] at hf
      cases hf
    | some pr =>
      rcases pr with ⟨a1, i⟩
      rw [msgpipe_remove_cons_some koid mixer a w rest a1 i hrw] at hf ⊢
      obtain ⟨h, hg, ha1⟩ := RemoveHandle_NoLock_inv a koid mixer w a1 i hrw
      rcases List.mem_cons.mp hv with rfl | hvrest
      · have hnone : GetHandle_NoLock a1 koid mixer v = none := by
          rw [ha1]
          exact GetHandle_after_remove_self a koid mixer v i h hk hg
        exact msgpipe_remove_preserves_none koid mixer hk rest a1 v hnone
      · exact ih a1 hf v hvrest

theorem msgpipe_remove_take_live (koid mixer : Nat) (hk : koid ≠ 0) :
    ∀ (vs : List Nat) (a : Arena),
    ∀ w ∈ vs.take (msgpipe_remove koid mixer a vs).2.1,
    ∃ h, lookupSlot a (decode_handle_id w mixer) = some h ∧ h.procId = koid := by
  intro vs
  induction vs with
  | nil => intro a w hw; cases hw
  | cons v rest ih =>
    intro a w hw
    cases hrw : RemoveHandle_NoLock a koid mixer v with
    | none =>
      rw [msgpipe_remove_cons_none koid mixer a v rest hrw] at hw
      cases hw
    | some pr =>
      rcases pr with ⟨a1, i⟩
      rw [msgpipe_remove_cons_some koid mixer a v rest a1 i hrw] at hw
      simp only [List.take_succ_cons] at hw
      obtain ⟨h, hg, ha1⟩ := RemoveHandle_NoLock_inv a koid mixer v a1 i hrw
      obtain ⟨hdec, _, hlk, hpid⟩ := GetHandle_NoLock_inv a koid mixer v i h hg
      rcases List.mem_cons.mp hw with rfl | hwrest
      · exact ⟨h, hdec ▸ hlk, hpid⟩
      · obtain ⟨h1, hlk1, hpid1⟩ := ih a1 w hwrest
        rw [ha1, lookupSlot_setProcId] at hlk1
        cases hlk0 : lookupSlot a (decode_handle_id w mixer) with
        | none =>
          rw [hlk0] at hlk1
          cases hlk1
        | some h0 =>
          rw [hlk0, Option.map_some'] at hlk1
          have hx := Option.some.inj hlk1
          by_cases hij : decode_handle_id w mixer = i
          · exfalso
            rw [if_pos hij] at hx
            rw [← hx] at hpid1
            simp at hpid1
            omega
          · rw [if_neg hij] at hx
            exact ⟨h0, rfl, hx ▸ hpid1⟩

theorem msgpipe_undo_cons (koid mixer : Nat) (b : Arena) (v : Nat)
    (tk : List Nat) :
    msgpipe_undo koid mixer b (v :: tk) =
      msgpipe_undo koid mixer (UndoRemoveHandle_NoLock b koid mixer v) tk := rfl

theorem UndoRemoveHandle_eq (b : Arena) (koid mixer v : Nat) :
    UndoRemoveHandle_NoLock b koid mixer v =
      setProcId b (decode_handle_id v mixer) koid := rfl

theorem msgpipe_undo_setProcId_comm (koid mixer i : Nat) :
    ∀ (tk : List Nat) (b : Arena), (∀ w ∈ tk, decode_handle_id w mixer ≠ i) →
    msgpipe_undo koid mixer (setProcId b i koid) tk =
      setProcId (msgpipe_undo koid mixer b tk) i koid := by
  intro tk
  induction tk with
  | nil => intro b _; rfl
  | cons w tk' ih =>
    intro b hne
    rw [msgpipe_undo_cons, msgpipe_undo_cons, UndoRemoveHandle_eq, UndoRemoveHandle_eq]
    rw [setProcId_comm b i (decode_handle_id w mixer) koid koid
      (fun hc => hne w (List.mem_cons_self w tk') hc.symm)]
    exact ih (setProcId b (decode_handle_id w mixer) koid)
      (fun u hu => hne u (List.mem_cons_of_mem w hu))

/-- The heart of C1: undoing the removals performed before a failure (or all
of them, when the removal pass completed) restores the arena exactly. -/
theorem msgpipe_remove_undo (koid mixer : Nat) (hk : koid ≠ 0) :
    ∀ (vs : List Nat) (a : Arena), (a.map Prod.fst).Nodup →
    msgpipe_undo koid mixer (msgpipe_remove koid mixer a vs).1
      (vs.take (msgpipe_remove koid mixer a vs).2.1) = a := by
  intro vs
  induction vs with
  | nil => intro a _; rfl
  | cons v rest ih =>
    intro a hnodup
    cases hrw : RemoveHandle_NoLock a koid mixer v with
    | none =>
      rw [msgpipe_remove_cons_none koid mixer a v rest hrw]
      rfl
    | some pr =>
      rcases pr with ⟨a1, i⟩
      rw [msgpipe_remove_cons_some koid mixer a v rest a1 i hrw]
      obtain ⟨h, hg, ha1⟩ := RemoveHandle_NoLock_inv a koid mixer v a1 i hrw
      obtain ⟨hdec, _, hlk, hpid⟩ := GetHandle_NoLock_inv a koid mixer v i h hg
      simp only [List.take_succ_cons]
      have hne : ∀ w ∈ rest.take (msgpipe_remove koid mixer a1 rest).2.1,
          decode_handle_id w mixer ≠ i := by
        intro w hw hcontra
        obtain ⟨h1, hlk1, hpid1⟩ := msgpipe_remove_take_live koid mixer hk rest a1 w hw
        rw [hcontra, ha1, lookupSlot_setProcId, hlk, Option.map_some'] at hlk1
        have hx := Option.some.inj hlk1
        rw [if_pos rfl] at hx
        rw [← hx] at hpid1
        simp at hpid1
        omega
      rw [msgpipe_undo_cons, UndoRemoveHandle_eq, hdec]
      rw [msgpipe_undo_setProcId_comm koid mixer i
        (rest.take (msgpipe_remove koid mixer a1 rest).2.1)
        (msgpipe_remove koid mixer a1 rest).1 hne]
      have hnodup1 : (a1.map Prod.fst).Nodup := by
        rw [ha1, setProcId_keys]
        exact hnodup
      rw [ih a1 hnodup1, ha1, setProcId_setProcId]
      have := setProcId_self a i h hnodup hlk
      rw [hpid] at this
      exact this

/-- The handle pointers collected by the first pass are precisely the
decodes of the presented values. -/
theorem msgpipe_collect_idxs (a : Arena) (koid mixer pd : Nat) (isReply : Bool) :
    ∀ (vs : List Nat) (ix : Nat) (idxs : List Nat) (rf : Option Nat),
    msgpipe_collect a koid mixer pd isReply vs ix = .ok (idxs, rf) →
    idxs = vs.map (fun v => decode_handle_id v mixer) := by
  intro vs
  induction vs with
  | nil =>
    intro ix idxs rf hcol
    unfold msgpipe_collect at hcol
    simp only [Except.ok.injEq, Prod.mk.injEq] at hcol
    rw [← hcol.1]
    rfl
  | cons v rest ih =>
    intro ix idxs rf hcol
    cases hg : GetHandle_NoLock a koid mixer v with
    | none =>
      unfold msgpipe_collect at hcol
      rw [hg] at hcol
      cases hcol
    | some pr =>
      rcases pr with ⟨i, h⟩
      unfold msgpipe_collect at hcol
      rw [hg] at hcol
      simp only [] at hcol
      by_cases h1 : h.disp = pd ∧ ¬ isReply = true
      · rw [if_pos h1] at hcol
        cases hcol
      · rw [if_neg h1] at hcol
        by_cases h2 : ¬ magenta_rights_check h.rights MX_RIGHT_TRANSFER = true
        · rw [if_pos h2] at hcol
          cases hcol
        · rw [if_neg h2] at hcol
          cases hrec : msgpipe_collect a koid mixer pd isReply rest (ix + 1) with
          | error e =>
            rw [hrec] at hcol
            cases hcol
          | ok pr2 =>
            rcases pr2 with ⟨is, rf2⟩
            rw [hrec] at hcol
            simp only [Except.ok.injEq, Prod.mk.injEq] at hcol
            have hd : decode_handle_id v mixer = i :=
              (GetHandle_NoLock_inv a koid mixer v i h hg).1
            have hrest := ih (ix + 1) is rf2 hrec
            rw [← hcol.1, List.map_cons, hd, ← hrest]

/-- A successful MessagePipe::Write appends the packet to the other side's
queue. -/
theorem MessagePipe_Write_messages (p : MessagePipe) (side : Nat)
    (msg : MessagePacket) (hside : side = 0 ∨ side = 1) :
    ∀ st p', MessagePipe.Write p side msg = (st, p') → st = Status.noError →
    p'.messages (other_side side) = p.messages (other_side side) ++ [msg] := by
  intro st p' hw hst
  subst hst
  rcases hside with rfl | rfl
  · by_cases ha : p.alive (other_side 0) = true
    · have ha1 : p.alive1 = true := by simpa [other_side, MessagePipe.alive] using ha
      unfold MessagePipe.Write at hw
      simp only [other_side, MessagePipe.alive] at hw
      simp [ha1] at hw
      rw [← hw]
      simp [MessagePipe.setWaiter, MessagePipe.setMessages, MessagePipe.messages,
        other_side]
    · have ha1 : p.alive1 = false := by
        rcases hb : p.alive1 with _ | _
        · rfl
        · exact absurd (by simpa [other_side, MessagePipe.alive] using hb) ha
      unfold MessagePipe.Write at hw
      simp only [other_side, MessagePipe.alive] at hw
      simp [ha1] at hw
  · by_cases ha : p.alive (other_side 1) = true
    · have ha0 : p.alive0 = true := by simpa [other_side, MessagePipe.alive] using ha
      unfold MessagePipe.Write at hw
      simp only [other_side, MessagePipe.alive] at hw
      simp [ha0] at hw
      rw [← hw]
      simp [MessagePipe.setWaiter, MessagePipe.setMessages, MessagePipe.messages,
        other_side]
    · have ha0 : p.alive0 = false := by
        rcases hb : p.alive0 with _ | _
        · rfl
        · exact absurd (by simpa [other_side, MessagePipe.alive] using hb) ha
      unfold MessagePipe.Write at hw
      simp only [other_side, MessagePipe.alive] at hw
      simp [ha0] at hw

/-- The validation pass only ever fails with an error status. -/
theorem msgpipe_collect_error_ne (a : Arena) (koid mixer pd : Nat) (isReply : Bool) :
    ∀ (vs : List Nat) (ix : Nat) (e : Status),
    msgpipe_collect a koid mixer pd isReply vs ix = .error e →
    e ≠ Status.noError := by
  intro vs
  induction vs with
  | nil =>
    intro ix e hcol
    unfold msgpipe_collect at hcol
    cases hcol
  | cons v rest ih =>
    intro ix e hcol
    cases hg : GetHandle_NoLock a koid mixer v with
    | none =>
      unfold msgpipe_collect at hcol
      rw [hg] at hcol
      simp only [Except.error.injEq] at hcol
      rw [← hcol]
      decide
    | some pr =>
      rcases pr with ⟨i, h⟩
      unfold msgpipe_collect at hcol
      rw [hg] at hcol
      simp only [] at hcol
      by_cases h1 : h.disp = pd ∧ ¬ isReply = true
      · rw [if_pos h1] at hcol
        simp only [Except.error.injEq] at hcol
        rw [← hcol]
        decide
      · rw [if_neg h1] at hcol
        by_cases h2 : ¬ magenta_rights_check h.rights MX_RIGHT_TRANSFER = true
        · rw [if_pos h2] at hcol
          simp only [Except.error.injEq] at hcol
          rw [← hcol]
          decide
        · rw [if_neg h2] at hcol
          cases hrec : msgpipe_collect a koid mixer pd isReply rest (ix + 1) with
          | error e2 =>
            rw [hrec] at hcol
            simp only [Except.error.injEq] at hcol
            rw [← hcol]
            exact ih (ix + 1) e2 hrec
          | ok pr2 =>
            rcases pr2 with ⟨is, rf2⟩
            rw [hrec] at hcol
            cases hcol

/-- C1: handle transfer in sys_msgpipe_write is atomic. On success every
listed handle value is removed from the caller's table and the packet
carrying exactly those handles is queued on the peer side; on any failure
(bad handle value, missing TRANSFER right, self-handle rules, a duplicate
value, peer closed, allocation failure) the handle table is exactly the one
before the call. -/
theorem c1_msgpipe_write_handle_atomicity (a : Arena) (koid mixer pipeHv : Nat)
    (p : MessagePipe) (side pipeDisp : Nat) (isReply : Bool)
    (dataBytes vals : List Nat) (allocFail : Bool)
    (hk : koid ≠ 0) (hnodup : (a.map Prod.fst).Nodup)
    (hside : side = 0 ∨ side = 1) :
    ∀ st a' p',
      sys_msgpipe_write a koid mixer pipeHv p side pipeDisp isReply dataBytes
        vals allocFail = (st, a', p') →
      (st = Status.noError →
        (∀ v ∈ vals, GetHandle_NoLock a' koid mixer v = none) ∧
        p'.messages (other_side side) =
          p.messages (other_side side) ++
            [⟨dataBytes, vals.map (fun v => decode_handle_id v mixer)⟩]) ∧
      (st ≠ Status.noError → a' = a) := by
  intro st a' p' hrun
  have hfail : ∀ (e : Status) (q : MessagePipe), e ≠ Status.noError → (e, a, q) = (st, a', p') →
      (st = Status.noError →
        (∀ v ∈ vals, GetHandle_NoLock a' koid mixer v = none) ∧
        p'.messages (other_side side) =
          p.messages (other_side side) ++
            [⟨dataBytes, vals.map (fun v => decode_handle_id v mixer)⟩]) ∧
      (st ≠ Status.noError → a' = a) := by
    intro e q he heq
    simp only [Prod.mk.injEq] at heq
    obtain ⟨hst, ha, _⟩ := heq
    constructor
    · intro h0
      rw [← hst] at h0
      exact absurd h0 he
    · intro _
      exact ha.symm
  cases hpg : GetHandle_NoLock a koid mixer pipeHv with
  | none =>
    unfold sys_msgpipe_write at hrun
    rw [hpg] at hrun
    exact hfail Status.errBadHandle p (by decide) hrun
  | some prg =>
    rcases prg with ⟨i0, ph⟩
    unfold sys_msgpipe_write at hrun
    rw [hpg] at hrun
    simp only [] at hrun
    by_cases hty : ¬ (ph.disp = pipeDisp)
    · rw [if_pos hty] at hrun
      exact hfail Status.errWrongType p (by decide) hrun
    · rw [if_neg hty] at hrun
      by_cases hwr : ¬ magenta_rights_check ph.rights MX_RIGHT_WRITE = true
      · rw [if_pos hwr] at hrun
        exact hfail Status.errAccessDenied p (by decide) hrun
      · rw [if_neg hwr] at hrun
        by_cases hbig : dataBytes.length > kMaxMessageSize
        · rw [if_pos hbig] at hrun
          exact hfail Status.errTooBig p (by decide) hrun
        · rw [if_neg hbig] at hrun
          by_cases hmany : vals.length > kMaxMessageHandles
          · rw [if_pos hmany] at hrun
            exact hfail Status.errTooBig p (by decide) hrun
          · rw [if_neg hmany] at hrun
            cases hcol : msgpipe_collect a koid mixer pipeDisp isReply vals 0 with
            | error e =>
              rw [hcol] at hrun
              exact hfail e p
                (msgpipe_collect_error_ne a koid mixer pipeDisp isReply vals 0 e hcol)
                hrun
            | ok prc =>
              rcases prc with ⟨idxs, rf⟩
              rw [hcol] at hrun
              simp only [] at hrun
              have hidxs : idxs = vals.map (fun v => decode_handle_id v mixer) :=
                msgpipe_collect_idxs a koid mixer pipeDisp isReply vals 0 idxs rf hcol
              by_cases hrp : isReply = true ∧ (vals.length = 0 ∨ rf ≠ some (vals.length - 1))
              · rw [if_pos hrp] at hrun
                exact hfail Status.errBadState p (by decide) hrun
              · rw [if_neg hrp] at hrun
                by_cases hrem : (msgpipe_remove koid mixer a vals).2.2 = true
                · rw [if_pos hrem] at hrun
                  refine hfail Status.errInvalidArgs p (by decide) ?_
                  rw [msgpipe_remove_undo koid mixer hk vals a hnodup] at hrun
                  exact hrun
                · rw [if_neg hrem] at hrun
                  have hremf : (msgpipe_remove koid mixer a vals).2.2 = false := by
                    simpa using hrem
                  by_cases haf : allocFail = true
                  · rw [haf] at hrun
                    simp only [if_true, ite_true] at hrun
                    rw [if_pos (by decide : Status.errNoMemory ≠ Status.noError)] at hrun
                    refine hfail Status.errNoMemory p (by decide) ?_
                    have hundoall : msgpipe_undo koid mixer
                        (msgpipe_remove koid mixer a vals).1 vals = a := by
                      have h1 := msgpipe_remove_undo koid mixer hk vals a hnodup
                      rw [msgpipe_remove_length koid mixer vals a hremf,
                        List.take_length] at h1
                      exact h1
                    rw [hundoall] at hrun
                    exact hrun
                  · have haf' : allocFail = false := by simpa using haf
                    rw [haf'] at hrun
                    rw [if_neg (by decide : ¬ false = true)] at hrun
                    by_cases hws : (MessagePipe.Write p side ⟨dataBytes, idxs⟩).1 ≠ Status.noError
                    · rw [if_pos hws] at hrun
                      refine hfail (MessagePipe.Write p side ⟨dataBytes, idxs⟩).1
                        (MessagePipe.Write p side ⟨dataBytes, idxs⟩).2 hws ?_
                      have hundoall : msgpipe_undo koid mixer
                          (msgpipe_remove koid mixer a vals).1 vals = a := by
                        have h1 := msgpipe_remove_undo koid mixer hk vals a hnodup
                        rw [msgpipe_remove_length koid mixer vals a hremf,
                          List.take_length] at h1
                        exact h1
                      rw [hundoall] at hrun
                      exact hrun
                    · rw [if_neg hws] at hrun
                      have hws' : (MessagePipe.Write p side ⟨dataBytes, idxs⟩).1 =
                          Status.noError := by simpa using hws
                      simp only [Prod.mk.injEq] at hrun
                      obtain ⟨hst, ha, hp⟩ := hrun
                      constructor
                      · intro _
                        constructor
                        · intro v hv
                          rw [← ha]
                          exact msgpipe_remove_all_removed koid mixer hk vals a hremf v hv
                        · rw [← hp, ← hidxs]
                          exact MessagePipe_Write_messages p side ⟨dataBytes, idxs⟩ hside
                            (MessagePipe.Write p side ⟨dataBytes, idxs⟩).1
                            (MessagePipe.Write p side ⟨dataBytes, idxs⟩).2 rfl hws'
                      · intro h0
                        rw [← hst] at h0
                        exact absurd rfl h0

/-- Witness for c1_msgpipe_write_handle_atomicity: a two-slot arena (the
pipe handle and one transferable handle), writing one byte and one handle
into a fresh pipe. -/
theorem c1_msgpipe_write_handle_atomicity_witness :
    ((9 : Nat) ≠ 0 ∧
      (([(0, ⟨8, 9, 100⟩), (1, ⟨2, 9, 50⟩)] : Arena).map Prod.fst).Nodup ∧
      ((0 : Nat) = 0 ∨ (0 : Nat) = 1)) ∧
    (((sys_msgpipe_write [(0, ⟨8, 9, 100⟩), (1, ⟨2, 9, 50⟩)] 9 0 1
          MessagePipe.init 0 100 false [7] [5] false).1 = Status.noError →
        (∀ v ∈ [5], GetHandle_NoLock
            (sys_msgpipe_write [(0, ⟨8, 9, 100⟩), (1, ⟨2, 9, 50⟩)] 9 0 1
              MessagePipe.init 0 100 false [7] [5] false).2.1 9 0 v = none) ∧
        (sys_msgpipe_write [(0, ⟨8, 9, 100⟩), (1, ⟨2, 9, 50⟩)] 9 0 1
            MessagePipe.init 0 100 false [7] [5] false).2.2.messages
            (other_side 0) =
          MessagePipe.init.messages (other_side 0) ++
            [⟨[7], [5].map (fun v => decode_handle_id v 0)⟩]) ∧
      ((sys_msgpipe_write [(0, ⟨8, 9, 100⟩), (1, ⟨2, 9, 50⟩)] 9 0 1
          MessagePipe.init 0 100 false [7] [5] false).1 ≠ Status.noError →
        (sys_msgpipe_write [(0, ⟨8, 9, 100⟩), (1, ⟨2, 9, 50⟩)] 9 0 1
          MessagePipe.init 0 100 false [7] [5] false).2.1 =
          [(0, ⟨8, 9, 100⟩), (1, ⟨2, 9, 50⟩)])) :=
  ⟨⟨by decide, by decide, Or.inl rfl⟩,
    c1_msgpipe_write_handle_atomicity [(0, ⟨8, 9, 100⟩), (1, ⟨2, 9, 50⟩)] 9 0 1
      MessagePipe.init 0 100 false [7] [5] false (by decide) (by decide)
      (Or.inl rfl)
      (sys_msgpipe_write [(0, ⟨8, 9, 100⟩), (1, ⟨2, 9, 50⟩)] 9 0 1
        MessagePipe.init 0 100 false [7] [5] false).1
      (sys_msgpipe_write [(0, ⟨8, 9, 100⟩), (1, ⟨2, 9, 50⟩)] 9 0 1
        MessagePipe.init 0 100 false [7] [5] false).2.1
      (sys_msgpipe_write [(0, ⟨8, 9, 100⟩), (1, ⟨2, 9, 50⟩)] 9 0 1
        MessagePipe.init 0 100 false [7] [5] false).2.2 rfl⟩

end Magenta
